import Mathlib

/-!
Verification development for the `ovs_exporter` repository's
diagnostic-text extraction and snapshot-cache subsystem.

The Go sources embedded here:
* `pkg/ovs_exporter/pmd_metrics.go` — `PmdPerformanceMetrics`,
  `GetPmdPerfMetrics`, `parsePmdPerfOutput` (namespace `BasicPmd`);
* the enhanced-metrics file — `EnhancedPmdMetrics`,
  `GetEnhancedPmdMetrics`, `parseEnhancedPmdOutput`, `enrichWithStats`,
  `GetDropCounters` (namespace `EnhancedPmd`);
* the collector file — `collectDropCounters`;
* the exporter file — the rate-limiting skeleton of `GatherMetrics`.

Modelling conventions:
* Go `uint64` is modelled as `Nat`, with an explicit `% 2^64` at each
  operation that can overflow or wrap (`u64add`, `u64sub`, `uint64OfFloat`).
* Go `float64` values are modelled as exact rationals (`ℚ`).  Every
  concrete value appearing in a theorem below is exactly representable in
  binary64, so no claim settled here depends on float rounding.  Range
  overflow of `strconv.ParseFloat` (values above ~1.8e308) is not modelled.
* Go regular expressions are embedded as explicit pattern syntax trees
  (`Regex`) evaluated by a backtracking matcher.  Go's `regexp` package
  (non-POSIX mode) uses leftmost-first, Perl-style semantics: alternation
  prefers the left branch, `*`/`+`/`?` are greedy, and the search returns
  the match starting at the leftmost possible position.  The matcher below
  implements exactly those semantics.  All starred/plus-ed subexpressions
  in the source patterns are single character atoms, which the `Regex`
  type enforces, making the matcher structurally terminating.
-/

/- Core `Rat` arithmetic is `@[irreducible]`, which blocks `decide` on the
concrete evaluations below; restore default reducibility. -/
set_option allowUnsafeReducibility true in
attribute [semireducible] Rat.add Rat.mul Rat.div Rat.sub Rat.neg Rat.inv Rat.normalize mkRat Rat.ofScientific

/-- Character atoms of the source regular expressions: literal characters
and the character classes that occur in the Go patterns. -/
inductive RAtom : Type
  | lit (c : Char)
  | digit
  | space
  | nonspace
  | word
  | digitDot
  | any
deriving DecidableEq

/-- Whether one input character matches an atom.  `\d`, `\s`, `\S`, `\w`
follow RE2 (Go `regexp`) definitions: `\s = [\t\n\f\r ]`,
`\w = [0-9A-Za-z_]`; `.` matches any character except newline. -/
def matchAtom : RAtom → Char → Bool
  | .lit c, d => d == c
  | .digit, d => d.isDigit
  | .space, d => d == ' ' || d == '\t' || d == '\n' || d == '\x0c' || d == '\r'
  | .nonspace, d => !(d == ' ' || d == '\t' || d == '\n' || d == '\x0c' || d == '\r')
  | .word, d => d.isDigit || d.isAlpha || d == '_'
  | .digitDot, d => d.isDigit || d == '.'
  | .any, d => d != '\n'

/-- Pattern syntax.  `star`/`plus` apply only to atoms, exactly the shape
of the source patterns (`.*`, `\s+`, `\d+`, `[\d.]+`, `\w+`, `\S+`). -/
inductive Regex : Type
  | eps
  | atom (a : RAtom)
  | seq (r₁ r₂ : Regex)
  | alt (r₁ r₂ : Regex)
  | star (a : RAtom)
  | plus (a : RAtom)
  | opt (r : Regex)
  | group (r : Regex)
deriving DecidableEq

/-- Sequence a list of patterns. -/
def Regex.cat : List Regex → Regex
  | [] => .eps
  | [r] => r
  | r :: rs => .seq r (Regex.cat rs)

/-- The pattern matching a literal string. -/
def rlit (s : String) : Regex :=
  Regex.cat (s.toList.map (fun c => Regex.atom (RAtom.lit c)))

/-- Greedy iteration of an atom: the possible remainders after consuming
a run of matching characters, longest run first. -/
def starRems (a : RAtom) : List Char → List (List Char)
  | [] => [[]]
  | c :: rest =>
    if matchAtom a c then starRems a rest ++ [c :: rest]
    else [c :: rest]

/-- Backtracking matcher.  `mruns r s` lists every way a prefix of `s`
can match `r`, as (remaining input, captures produced by the groups of
`r` in source order — the patterns embedded here have no nested and no
repeated groups), ordered by backtracking preference: alternation prefers
the left branch and repetition is greedy, i.e. the head of the list is
the match Go's leftmost-first (Perl-style) engine selects. -/
def mruns : Regex → List Char → List (List Char × List String)
  | .eps, s => [(s, [])]
  | .atom a, s =>
    match s with
    | [] => []
    | c :: rest => if matchAtom a c then [(rest, [])] else []
  | .seq r₁ r₂, s =>
    (mruns r₁ s).bind (fun p =>
      (mruns r₂ p.1).map (fun q => (q.1, p.2 ++ q.2)))
  | .alt r₁ r₂, s => mruns r₁ s ++ mruns r₂ s
  | .star a, s => (starRems a s).map (fun rem => (rem, []))
  | .plus a, s =>
    match s with
    | [] => []
    | c :: rest =>
      if matchAtom a c then (starRems a rest).map (fun rem => (rem, []))
      else []
  | .opt r, s => mruns r s ++ [(s, [])]
  | .group r, s =>
    (mruns r s).map (fun p =>
      (p.1, p.2 ++ [String.mk (s.take (s.length - p.1.length))]))

/-- Try to match `r` at the start of `s`, taking the first candidate in
backtracking order.  On success returns the list
`[full match, group 1, group 2, ...]` — the same indexing as the slice
returned by Go's `FindStringSubmatch`. -/
def matchAt (r : Regex) (s : List Char) : Option (List String) :=
  match mruns r s with
  | [] => none
  | (rem, caps) :: _ =>
    some (String.mk (s.take (s.length - rem.length)) :: caps)

/-- Unanchored search, leftmost starting position first: Go's
`Regexp.FindStringSubmatch`.  Returns `none` when no substring matches
(Go returns a nil slice). -/
def findStringSubmatch (r : Regex) : List Char → Option (List String)
  | [] => matchAt r []
  | c :: t =>
    match matchAt r (c :: t) with
    | some res => some res
    | none => findStringSubmatch r t

/-- Finish one scanned line held in reverse order, stripping one
trailing carriage return as `bufio.ScanLines`'s `dropCR` does. -/
def finishLine (acc : List Char) : String :=
  match acc with
  | '\r' :: rest => String.mk rest.reverse
  | _ => String.mk acc.reverse

/-- Accumulating scanner over the input characters: emit a line at each
newline; at end of input emit the pending line only when non-empty. -/
def scanLinesAux : List Char → List Char → List String
  | [], acc =>
    match acc with
    | [] => []
    | _ => [finishLine acc]
  | c :: cs, acc =>
    if c = '\n' then finishLine acc :: scanLinesAux cs []
    else scanLinesAux cs (c :: acc)

/-- The lines produced by `bufio.Scanner` with the default `ScanLines`
split function: tokens are separated by `\n`, each token has a trailing
`\r` stripped, empty input yields no tokens, and a trailing newline does
not produce a final empty token. -/
def linesOf (s : String) : List String :=
  scanLinesAux s.toList []

/-- Whether `p` is a prefix of `s` (over character lists). -/
def isPreOf : List Char → List Char → Bool
  | [], _ => true
  | _ :: _, [] => false
  | a :: ps, b :: ss => a == b && isPreOf ps ss

/-- Substring search over character lists. -/
def hasSubAux (p : List Char) : List Char → Bool
  | [] => isPreOf p []
  | c :: t => isPreOf p (c :: t) || hasSubAux p t

/-- Go's `strings.Contains s pat`. -/
def containsSubstr (s pat : String) : Bool :=
  hasSubAux pat.toList s.toList

/-- Go's `unicode.IsSpace` restricted to ASCII, the only characters the
claims exercise. -/
def isGoSpace (c : Char) : Bool :=
  c == ' ' || c == '\t' || c == '\n' || c == '\x0b' || c == '\x0c' || c == '\r'

/-- Go's `strings.TrimSpace`. -/
def trimSpace (s : String) : String :=
  String.mk (((s.toList.dropWhile isGoSpace).reverse.dropWhile isGoSpace).reverse)

/-- Numeric value of a digit list. -/
def digitsVal (cs : List Char) : Nat :=
  cs.foldl (fun acc c => acc * 10 + (c.toNat - 48)) 0

/-- Go's `strconv.ParseUint(s, 10, 64)`, restricted to the all-digit
strings produced by the `(\d+)` captures feeding it: succeeds on a
non-empty digit string whose value fits in 64 bits, fails otherwise
(on overflow Go reports `ErrRange` and the caller skips the field). -/
def parseUint64 (s : String) : Option Nat :=
  let cs := s.toList
  if cs ≠ [] ∧ cs.all Char.isDigit then
    let n := digitsVal cs
    if n < 2 ^ 64 then some n else none
  else none

/-- Split a character list at every dot. -/
def splitOnDot : List Char → List (List Char)
  | [] => [[]]
  | c :: cs =>
    let r := splitOnDot cs
    if c = '.' then [] :: r
    else
      match r with
      | h :: t => (c :: h) :: t
      | [] => [[c]]

/-- Go's `strconv.ParseFloat(s, 64)`, restricted to the strings produced
by the `([\d.]+)` captures feeding it: digits with at most one dot and at
least one digit.  The value is modelled exactly (as a rational) instead of
being rounded to binary64. -/
def parseFloatQ (s : String) : Option ℚ :=
  match splitOnDot s.toList with
  | [intPart] =>
    if intPart ≠ [] ∧ intPart.all Char.isDigit then
      some (digitsVal intPart : ℚ)
    else none
  | [intPart, fracPart] =>
    if (intPart ≠ [] ∨ fracPart ≠ []) ∧ intPart.all Char.isDigit ∧
        fracPart.all Char.isDigit then
      some ((digitsVal intPart : ℚ) +
        (digitsVal fracPart : ℚ) / (10 : ℚ) ^ fracPart.length)
    else none
  | _ => none

/-- Go `uint64` addition (wraps modulo `2^64`). -/
def u64add (a b : Nat) : Nat := (a + b) % 2 ^ 64

/-- Go `uint64` subtraction `a - b` (wraps modulo `2^64`); requires the
caller's operands to be below `2^64`, which every field value here is. -/
def u64sub (a b : Nat) : Nat := (a + 2 ^ 64 - b) % 2 ^ 64

/-- Go's conversion `uint64(f)` for a non-negative `float64` `f`,
modelled on exact rationals: truncation toward zero, reduced modulo
`2^64`.  (For values outside `[0, 2^64)` the Go conversion is
implementation-defined; no claim settled here exercises that range.) -/
def uint64OfFloat (q : ℚ) : Nat := q.floor.toNat % 2 ^ 64

/-- Update a record from an optional parsed value: Go's
`if val, err := strconv.Parse...(...); err == nil { field = val }`. -/
def updOpt {α β : Type} (o : Option α) (f : α → β → β) (m : β) : β :=
  match o with
  | some v => f v m
  | none => m

/-- Go's `map[string]uint64` assignment `m[k] = v` on an association
list: replace the existing entry for `k`, or append a new one. -/
def mapInsert (m : List (String × Nat)) (k : String) (v : Nat) :
    List (String × Nat) :=
  if (m.map Prod.fst).contains k then
    m.map (fun p => if p.1 = k then (k, v) else p)
  else m ++ [(k, v)]

/-- ASCII branch of Go's `strings.ToLower` (the histogram-name captures
are `\w+`, hence ASCII). -/
def asciiLower (s : String) : String :=
  String.mk (s.toList.map (fun c =>
    if 'A' ≤ c ∧ c ≤ 'Z' then Char.ofNat (c.toNat + 32) else c))

/-- Thread-header pattern `pmd thread numa_id (\d+) core_id (\d+):`.
Declared with identical text in both parser files; embedded once. -/
def pmdHeaderRe : Regex :=
  Regex.cat [rlit "pmd thread numa_id ", .group (.plus .digit),
    rlit " core_id ", .group (.plus .digit), rlit ":"]

/-- The numa-id and core-id capture groups of a thread-header line, when
the line matches the header pattern. -/
def headerCaps (line : String) : Option (String × String) :=
  (findStringSubmatch pmdHeaderRe line.toList).map
    (fun ms => (ms.getD 1 "", ms.getD 2 ""))

namespace BasicPmd

/-- `PmdPerformanceMetrics` from `pkg/ovs_exporter/pmd_metrics.go`. -/
structure PmdPerformanceMetrics where
  PmdID : String
  NumaID : String
  Iterations : Nat
  BusyCycles : Nat
  CyclesPerIteration : ℚ
  PacketsPerIteration : ℚ
  CyclesPerPacket : ℚ
  PacketsPerBatch : ℚ
  MaxVhostQueueLength : Nat
  Upcalls : Nat
  UpcallCycles : Nat
  TxRetries : Nat
  TxContention : Nat
  TxIrqs : Nat
deriving DecidableEq

/-- The zero-valued record created at a thread-header line:
`&PmdPerformanceMetrics{NumaID: matches[1], PmdID: matches[2]}`. -/
def newBasic (numa core : String) : PmdPerformanceMetrics :=
  ⟨core, numa, 0, 0, 0, 0, 0, 0, 0, 0, 0, 0, 0, 0⟩

/-- Pattern `iterations:\s+(\d+)\s+\([\d.]+\s+us/it\)`. -/
def iterationsRe : Regex :=
  Regex.cat [rlit "iterations:", .plus .space, .group (.plus .digit),
    .plus .space, rlit "(", .plus .digitDot, .plus .space, rlit "us/it)"]

/-- Pattern `busy cycles:\s+([\d.]+)%.*\(([\d.]+) Mcycles.*\)`. -/
def busyCyclesRe : Regex :=
  Regex.cat [rlit "busy cycles:", .plus .space, .group (.plus .digitDot),
    rlit "%", .star .any, rlit "(", .group (.plus .digitDot),
    rlit " Mcycles", .star .any, rlit ")"]

/-- Pattern `cycles/it:\s+([\d.]+)\s+\(([\d.]+) Mcycles\)`. -/
def cyclesPerItRe : Regex :=
  Regex.cat [rlit "cycles/it:", .plus .space, .group (.plus .digitDot),
    .plus .space, rlit "(", .group (.plus .digitDot), rlit " Mcycles)"]

/-- Pattern `pkts/it:\s+([\d.]+)`. -/
def pktsPerItRe : Regex :=
  Regex.cat [rlit "pkts/it:", .plus .space, .group (.plus .digitDot)]

/-- Pattern `cycles/pkt:\s+([\d.]+)`. -/
def cyclesPerPktRe : Regex :=
  Regex.cat [rlit "cycles/pkt:", .plus .space, .group (.plus .digitDot)]

/-- Pattern `avg pkts/batch:\s+([\d.]+)`. -/
def pktsPerBatchRe : Regex :=
  Regex.cat [rlit "avg pkts/batch:", .plus .space, .group (.plus .digitDot)]

/-- Pattern `avg max vhost qlen:\s+(\d+)`. -/
def maxVhostQRe : Regex :=
  Regex.cat [rlit "avg max vhost qlen:", .plus .space, .group (.plus .digit)]

/-- Pattern `upcalls:\s+(\d+)\s+\(([\d.]+) us\s+([\d.]+) Mcycles\)`. -/
def upcallsRe : Regex :=
  Regex.cat [rlit "upcalls:", .plus .space, .group (.plus .digit),
    .plus .space, rlit "(", .group (.plus .digitDot), rlit " us",
    .plus .space, .group (.plus .digitDot), rlit " Mcycles)"]

/-- Pattern `vhost tx retries:\s+(\d+)`. -/
def txRetriesRe : Regex :=
  Regex.cat [rlit "vhost tx retries:", .plus .space, .group (.plus .digit)]

/-- Pattern `vhost tx contention:\s+(\d+)`. -/
def txContentionRe : Regex :=
  Regex.cat [rlit "vhost tx contention:", .plus .space, .group (.plus .digit)]

/-- Pattern `vhost tx irqs:\s+(\d+)`. -/
def txIrqsRe : Regex :=
  Regex.cat [rlit "vhost tx irqs:", .plus .space, .group (.plus .digit)]

/-- The `iterations` matcher block of `parsePmdPerfOutput`. -/
def iterationsStep (cs : List Char) (m : PmdPerformanceMetrics) :
    PmdPerformanceMetrics :=
  match findStringSubmatch iterationsRe cs with
  | some ms => updOpt (parseUint64 (ms.getD 1 ""))
      (fun v m => { m with Iterations := v }) m
  | none => m

/-- The `busy cycles` matcher block: `BusyCycles = uint64(val * 1000000)`
from the Mcycles capture. -/
def busyCyclesStep (cs : List Char) (m : PmdPerformanceMetrics) :
    PmdPerformanceMetrics :=
  match findStringSubmatch busyCyclesRe cs with
  | some ms => updOpt (parseFloatQ (ms.getD 2 ""))
      (fun v m => { m with BusyCycles := uint64OfFloat (v * 1000000) }) m
  | none => m

/-- The `cycles/it` matcher block. -/
def cyclesPerItStep (cs : List Char) (m : PmdPerformanceMetrics) :
    PmdPerformanceMetrics :=
  match findStringSubmatch cyclesPerItRe cs with
  | some ms => updOpt (parseFloatQ (ms.getD 1 ""))
      (fun v m => { m with CyclesPerIteration := v }) m
  | none => m

/-- The `pkts/it` matcher block. -/
def pktsPerItStep (cs : List Char) (m : PmdPerformanceMetrics) :
    PmdPerformanceMetrics :=
  match findStringSubmatch pktsPerItRe cs with
  | some ms => updOpt (parseFloatQ (ms.getD 1 ""))
      (fun v m => { m with PacketsPerIteration := v }) m
  | none => m

/-- The `cycles/pkt` matcher block. -/
def cyclesPerPktStep (cs : List Char) (m : PmdPerformanceMetrics) :
    PmdPerformanceMetrics :=
  match findStringSubmatch cyclesPerPktRe cs with
  | some ms => updOpt (parseFloatQ (ms.getD 1 ""))
      (fun v m => { m with CyclesPerPacket := v }) m
  | none => m

/-- The `avg pkts/batch` matcher block. -/
def pktsPerBatchStep (cs : List Char) (m : PmdPerformanceMetrics) :
    PmdPerformanceMetrics :=
  match findStringSubmatch pktsPerBatchRe cs with
  | some ms => updOpt (parseFloatQ (ms.getD 1 ""))
      (fun v m => { m with PacketsPerBatch := v }) m
  | none => m

/-- The `avg max vhost qlen` matcher block. -/
def maxVhostQStep (cs : List Char) (m : PmdPerformanceMetrics) :
    PmdPerformanceMetrics :=
  match findStringSubmatch maxVhostQRe cs with
  | some ms => updOpt (parseUint64 (ms.getD 1 ""))
      (fun v m => { m with MaxVhostQueueLength := v }) m
  | none => m

/-- The `upcalls` matcher block: count from `matches[1]`, cycles from the
Mcycles capture `matches[3]`. -/
def upcallsStep (cs : List Char) (m : PmdPerformanceMetrics) :
    PmdPerformanceMetrics :=
  match findStringSubmatch upcallsRe cs with
  | some ms =>
    updOpt (parseFloatQ (ms.getD 3 ""))
      (fun v m => { m with UpcallCycles := uint64OfFloat (v * 1000000) })
      (updOpt (parseUint64 (ms.getD 1 ""))
        (fun v m => { m with Upcalls := v }) m)
  | none => m

/-- The `vhost tx retries` matcher block. -/
def txRetriesStep (cs : List Char) (m : PmdPerformanceMetrics) :
    PmdPerformanceMetrics :=
  match findStringSubmatch txRetriesRe cs with
  | some ms => updOpt (parseUint64 (ms.getD 1 ""))
      (fun v m => { m with TxRetries := v }) m
  | none => m

/-- The `vhost tx contention` matcher block. -/
def txContentionStep (cs : List Char) (m : PmdPerformanceMetrics) :
    PmdPerformanceMetrics :=
  match findStringSubmatch txContentionRe cs with
  | some ms => updOpt (parseUint64 (ms.getD 1 ""))
      (fun v m => { m with TxContention := v }) m
  | none => m

/-- The `vhost tx irqs` matcher block. -/
def txIrqsStep (cs : List Char) (m : PmdPerformanceMetrics) :
    PmdPerformanceMetrics :=
  match findStringSubmatch txIrqsRe cs with
  | some ms => updOpt (parseUint64 (ms.getD 1 ""))
      (fun v m => { m with TxIrqs := v }) m
  | none => m

/-- All field-matcher blocks of `parsePmdPerfOutput`, in source order. -/
def applyFieldMatchers (cs : List Char) (m : PmdPerformanceMetrics) :
    PmdPerformanceMetrics :=
  txIrqsStep cs (txContentionStep cs (txRetriesStep cs (upcallsStep cs
    (maxVhostQStep cs (pktsPerBatchStep cs (cyclesPerPktStep cs
      (pktsPerItStep cs (cyclesPerItStep cs (busyCyclesStep cs
        (iterationsStep cs m))))))))))

/-- Scanner state of `parsePmdPerfOutput`: the accumulated record list and
the record under construction. -/
structure BScanState where
  metrics : List PmdPerformanceMetrics
  currentMetric : Option PmdPerformanceMetrics
deriving DecidableEq

/-- One loop iteration of `parsePmdPerfOutput`: a thread-header line
finalizes the current record (appending it unchanged) and starts a fresh
one; any other line is skipped when no record is active, and otherwise
offered to every field matcher. -/
def basicStep (st : BScanState) (line : String) : BScanState :=
  let cs := line.toList
  match findStringSubmatch pmdHeaderRe cs with
  | some ms =>
    { metrics := st.metrics ++ st.currentMetric.toList,
      currentMetric := some (newBasic (ms.getD 1 "") (ms.getD 2 "")) }
  | none =>
    match st.currentMetric with
    | none => st
    | some m => { st with currentMetric := some (applyFieldMatchers cs m) }

/-- `parsePmdPerfOutput`: scan all lines, then append the last record if
one exists; the error result is always nil. -/
def parsePmdPerfOutput (output : String) :
    List PmdPerformanceMetrics × Option String :=
  let st := (linesOf output).foldl basicStep ⟨[], none⟩
  (st.metrics ++ st.currentMetric.toList, none)

/-- `GetPmdPerfMetrics`, with the `exec.Command("ovs-appctl",
"dpif-netdev/pmd-perf-show").Output()` call abstracted as `cmdResult`
(`.error msg` carries the Go error's `Error()` string).  An error whose
message contains `"exit status"` means the command is unavailable and
yields an empty record list with nil error. -/
def GetPmdPerfMetrics (cmdResult : Except String String) :
    Except String (List PmdPerformanceMetrics) :=
  match cmdResult with
  | .error msg =>
    if containsSubstr msg "exit status" then .ok []
    else .error ("failed to execute pmd-perf-show: " ++ msg)
  | .ok output => .ok (parsePmdPerfOutput output).1

end BasicPmd

namespace EnhancedPmd

/-- `EnhancedPmdMetrics` from the enhanced-metrics file.  The three
histogram maps (`map[string]uint64`) are modelled as association lists in
insertion order. -/
structure EnhancedPmdMetrics where
  PmdID : String
  NumaID : String
  CoreID : String
  CPUUtilization : ℚ
  IdleCycles : Nat
  BusyCycles : Nat
  TotalCycles : Nat
  Iterations : Nat
  SleepIterations : Nat
  BusyIterations : Nat
  CyclesPerIteration : ℚ
  UsPerIteration : ℚ
  PacketsPerIteration : ℚ
  CyclesPerPacket : ℚ
  PacketsPerBatch : ℚ
  TotalPackets : Nat
  RxBatches : Nat
  RxPackets : Nat
  AvgRxBatchSize : ℚ
  MaxRxBatchSize : Nat
  TxBatches : Nat
  TxPackets : Nat
  AvgTxBatchSize : ℚ
  MaxVhostQueueLength : Nat
  AvgVhostQueueLength : ℚ
  VhostQueueFull : Nat
  Upcalls : Nat
  UpcallCycles : Nat
  AvgUpcallCycles : ℚ
  VhostTxRetries : Nat
  VhostTxContention : Nat
  VhostTxIrqs : Nat
  ExactMatchHit : Nat
  MaskedHit : Nat
  Miss : Nat
  Lost : Nat
  CyclesHistogram : List (String × Nat)
  PacketsHistogram : List (String × Nat)
  BatchSizeHistogram : List (String × Nat)
  SuspiciousIterations : Nat
  SuspiciousPercent : ℚ
deriving DecidableEq

/-- The record created at a thread-header line: identity fields from the
two capture groups (`NumaID: matches[1]`, `CoreID: matches[2]`,
`PmdID: matches[2]`), everything else zero-valued, histograms empty. -/
def newEnhanced (numa core : String) : EnhancedPmdMetrics :=
  ⟨core, numa, core, 0, 0, 0, 0, 0, 0, 0, 0, 0, 0, 0, 0, 0, 0, 0, 0, 0, 0,
    0, 0, 0, 0, 0, 0, 0, 0, 0, 0, 0, 0, 0, 0, 0, [], [], [], 0, 0⟩

/-- Pattern `(?:cpu|processor) utilization:\s+([\d.]+)%`. -/
def cpuUtilRe : Regex :=
  Regex.cat [.alt (rlit "cpu") (rlit "processor"), rlit " utilization:",
    .plus .space, .group (.plus .digitDot), rlit "%"]

/-- Pattern `idle cycles:\s+([\d.]+)%.*\(([\d.]+) Mcycles`. -/
def idleCyclesRe : Regex :=
  Regex.cat [rlit "idle cycles:", .plus .space, .group (.plus .digitDot),
    rlit "%", .star .any, rlit "(", .group (.plus .digitDot), rlit " Mcycles"]

/-- Pattern `busy cycles:\s+([\d.]+)%.*\(([\d.]+) Mcycles`. -/
def busyCyclesRe : Regex :=
  Regex.cat [rlit "busy cycles:", .plus .space, .group (.plus .digitDot),
    rlit "%", .star .any, rlit "(", .group (.plus .digitDot), rlit " Mcycles"]

/-- Pattern `iterations:\s+(\d+)\s+\(([\d.]+) us/it\)`. -/
def iterationsRe : Regex :=
  Regex.cat [rlit "iterations:", .plus .space, .group (.plus .digit),
    .plus .space, rlit "(", .group (.plus .digitDot), rlit " us/it)"]

/-- Pattern `sleep iterations:\s+(\d+)\s+\(([\d.]+)%`. -/
def sleepIterRe : Regex :=
  Regex.cat [rlit "sleep iterations:", .plus .space, .group (.plus .digit),
    .plus .space, rlit "(", .group (.plus .digitDot), rlit "%"]

/-- Pattern `cycles/it:\s+([\d.]+)\s+\(([\d.]+) Mcycles\)`. -/
def cyclesPerItRe : Regex :=
  Regex.cat [rlit "cycles/it:", .plus .space, .group (.plus .digitDot),
    .plus .space, rlit "(", .group (.plus .digitDot), rlit " Mcycles)"]

/-- Pattern `pkts/it:\s+([\d.]+)`. -/
def pktsPerItRe : Regex :=
  Regex.cat [rlit "pkts/it:", .plus .space, .group (.plus .digitDot)]

/-- Pattern `cycles/pkt:\s+([\d.]+)`. -/
def cyclesPerPktRe : Regex :=
  Regex.cat [rlit "cycles/pkt:", .plus .space, .group (.plus .digitDot)]

/-- Pattern `avg pkts/batch:\s+([\d.]+)`. -/
def pktsPerBatchRe : Regex :=
  Regex.cat [rlit "avg pkts/batch:", .plus .space, .group (.plus .digitDot)]

/-- Pattern `rx batches:\s+(\d+).*avg:\s+([\d.]+).*max:\s+(\d+)`. -/
def rxBatchRe : Regex :=
  Regex.cat [rlit "rx batches:", .plus .space, .group (.plus .digit),
    .star .any, rlit "avg:", .plus .space, .group (.plus .digitDot),
    .star .any, rlit "max:", .plus .space, .group (.plus .digit)]

/-- Pattern `tx batches:\s+(\d+).*avg:\s+([\d.]+)`. -/
def txBatchRe : Regex :=
  Regex.cat [rlit "tx batches:", .plus .space, .group (.plus .digit),
    .star .any, rlit "avg:", .plus .space, .group (.plus .digitDot)]

/-- Pattern `rx packets:\s+(\d+)`. -/
def rxPacketsRe : Regex :=
  Regex.cat [rlit "rx packets:", .plus .space, .group (.plus .digit)]

/-- Pattern `tx packets:\s+(\d+)`. -/
def txPacketsRe : Regex :=
  Regex.cat [rlit "tx packets:", .plus .space, .group (.plus .digit)]

/-- Pattern `(?:avg )?max vhost qlen:\s+(\d+)`. -/
def maxVhostQRe : Regex :=
  Regex.cat [.opt (rlit "avg "), rlit "max vhost qlen:", .plus .space,
    .group (.plus .digit)]

/-- Pattern `avg vhost qlen:\s+([\d.]+)`. -/
def avgVhostQRe : Regex :=
  Regex.cat [rlit "avg vhost qlen:", .plus .space, .group (.plus .digitDot)]

/-- Pattern `vhost queue full:\s+(\d+)`. -/
def vhostFullRe : Regex :=
  Regex.cat [rlit "vhost queue full:", .plus .space, .group (.plus .digit)]

/-- Pattern `upcalls:\s+(\d+)\s+\(([\d.]+) us\s+([\d.]+) Mcycles\)`. -/
def upcallsRe : Regex :=
  Regex.cat [rlit "upcalls:", .plus .space, .group (.plus .digit),
    .plus .space, rlit "(", .group (.plus .digitDot), rlit " us",
    .plus .space, .group (.plus .digitDot), rlit " Mcycles)"]

/-- Pattern `avg upcall cycles:\s+([\d.]+)`. -/
def avgUpcallRe : Regex :=
  Regex.cat [rlit "avg upcall cycles:", .plus .space, .group (.plus .digitDot)]

/-- Pattern `vhost tx retries:\s+(\d+)`. -/
def txRetriesRe : Regex :=
  Regex.cat [rlit "vhost tx retries:", .plus .space, .group (.plus .digit)]

/-- Pattern `vhost tx contention:\s+(\d+)`. -/
def txContentionRe : Regex :=
  Regex.cat [rlit "vhost tx contention:", .plus .space, .group (.plus .digit)]

/-- Pattern `vhost tx irqs:\s+(\d+)`. -/
def txIrqsRe : Regex :=
  Regex.cat [rlit "vhost tx irqs:", .plus .space, .group (.plus .digit)]

/-- Pattern `exact match hit:\s+(\d+)`. -/
def exactHitRe : Regex :=
  Regex.cat [rlit "exact match hit:", .plus .space, .group (.plus .digit)]

/-- Pattern `masked hit:\s+(\d+)`. -/
def maskedHitRe : Regex :=
  Regex.cat [rlit "masked hit:", .plus .space, .group (.plus .digit)]

/-- Pattern `miss:\s+(\d+)`. -/
def missRe : Regex :=
  Regex.cat [rlit "miss:", .plus .space, .group (.plus .digit)]

/-- Pattern `lost:\s+(\d+)`. -/
def lostRe : Regex :=
  Regex.cat [rlit "lost:", .plus .space, .group (.plus .digit)]

/-- Pattern `suspicious iterations:\s+(\d+)\s+\(([\d.]+)%\)`. -/
def suspiciousRe : Regex :=
  Regex.cat [rlit "suspicious iterations:", .plus .space, .group (.plus .digit),
    .plus .space, rlit "(", .group (.plus .digitDot), rlit "%)"]

/-- Pattern `(\w+) histogram:`. -/
def histogramRe : Regex :=
  Regex.cat [.group (.plus .word), rlit " histogram:"]

/-- Pattern `\s+(\d+-\d+|\d+\+):\s+(\d+)`. -/
def histogramEntryRe : Regex :=
  Regex.cat [.plus .space,
    .group (.alt (Regex.cat [.plus .digit, rlit "-", .plus .digit])
      (Regex.cat [.plus .digit, rlit "+"])),
    rlit ":", .plus .space, .group (.plus .digit)]

end EnhancedPmd

namespace EnhancedPmd

/-- The cpu-utilization matcher block of `parseEnhancedPmdOutput`. -/
def cpuUtilStep (cs : List Char) (m : EnhancedPmdMetrics) : EnhancedPmdMetrics :=
  match findStringSubmatch cpuUtilRe cs with
  | some ms => updOpt (parseFloatQ (ms.getD 1 ""))
      (fun v m => { m with CPUUtilization := v }) m
  | none => m

/-- The idle-cycles matcher block: `IdleCycles = uint64(val * 1000000)`
from the Mcycles capture `matches[2]`. -/
def idleCyclesStep (cs : List Char) (m : EnhancedPmdMetrics) : EnhancedPmdMetrics :=
  match findStringSubmatch idleCyclesRe cs with
  | some ms => updOpt (parseFloatQ (ms.getD 2 ""))
      (fun v m => { m with IdleCycles := uint64OfFloat (v * 1000000) }) m
  | none => m

/-- The busy-cycles matcher block: the percentage capture overwrites
`CPUUtilization`, the Mcycles capture sets `BusyCycles`. -/
def busyCyclesStep (cs : List Char) (m : EnhancedPmdMetrics) : EnhancedPmdMetrics :=
  match findStringSubmatch busyCyclesRe cs with
  | some ms =>
    updOpt (parseFloatQ (ms.getD 2 ""))
      (fun v m => { m with BusyCycles := uint64OfFloat (v * 1000000) })
      (updOpt (parseFloatQ (ms.getD 1 ""))
        (fun v m => { m with CPUUtilization := v }) m)
  | none => m

/-- The iterations matcher block. -/
def iterationsStep (cs : List Char) (m : EnhancedPmdMetrics) : EnhancedPmdMetrics :=
  match findStringSubmatch iterationsRe cs with
  | some ms =>
    updOpt (parseFloatQ (ms.getD 2 ""))
      (fun v m => { m with UsPerIteration := v })
      (updOpt (parseUint64 (ms.getD 1 ""))
        (fun v m => { m with Iterations := v }) m)
  | none => m

/-- The sleep-iterations matcher block: sets `SleepIterations` and derives
`BusyIterations = Iterations - val` (Go `uint64` subtraction). -/
def sleepIterStep (cs : List Char) (m : EnhancedPmdMetrics) : EnhancedPmdMetrics :=
  match findStringSubmatch sleepIterRe cs with
  | some ms => updOpt (parseUint64 (ms.getD 1 ""))
      (fun v m =>
        { m with SleepIterations := v, BusyIterations := u64sub m.Iterations v }) m
  | none => m

/-- The cycles-per-iteration matcher block. -/
def cyclesPerItStep (cs : List Char) (m : EnhancedPmdMetrics) : EnhancedPmdMetrics :=
  match findStringSubmatch cyclesPerItRe cs with
  | some ms => updOpt (parseFloatQ (ms.getD 1 ""))
      (fun v m => { m with CyclesPerIteration := v }) m
  | none => m

/-- The packets-per-iteration matcher block. -/
def pktsPerItStep (cs : List Char) (m : EnhancedPmdMetrics) : EnhancedPmdMetrics :=
  match findStringSubmatch pktsPerItRe cs with
  | some ms => updOpt (parseFloatQ (ms.getD 1 ""))
      (fun v m => { m with PacketsPerIteration := v }) m
  | none => m

/-- The cycles-per-packet matcher block. -/
def cyclesPerPktStep (cs : List Char) (m : EnhancedPmdMetrics) : EnhancedPmdMetrics :=
  match findStringSubmatch cyclesPerPktRe cs with
  | some ms => updOpt (parseFloatQ (ms.getD 1 ""))
      (fun v m => { m with CyclesPerPacket := v }) m
  | none => m

/-- The packets-per-batch matcher block. -/
def pktsPerBatchStep (cs : List Char) (m : EnhancedPmdMetrics) : EnhancedPmdMetrics :=
  match findStringSubmatch pktsPerBatchRe cs with
  | some ms => updOpt (parseFloatQ (ms.getD 1 ""))
      (fun v m => { m with PacketsPerBatch := v }) m
  | none => m

/-- The rx-batch matcher block: count, average size, maximum size. -/
def rxBatchStep (cs : List Char) (m : EnhancedPmdMetrics) : EnhancedPmdMetrics :=
  match findStringSubmatch rxBatchRe cs with
  | some ms =>
    updOpt (parseUint64 (ms.getD 3 ""))
      (fun v m => { m with MaxRxBatchSize := v })
      (updOpt (parseFloatQ (ms.getD 2 ""))
        (fun v m => { m with AvgRxBatchSize := v })
        (updOpt (parseUint64 (ms.getD 1 ""))
          (fun v m => { m with RxBatches := v }) m))
  | none => m

/-- The rx-packets matcher block. -/
def rxPacketsStep (cs : List Char) (m : EnhancedPmdMetrics) : EnhancedPmdMetrics :=
  match findStringSubmatch rxPacketsRe cs with
  | some ms => updOpt (parseUint64 (ms.getD 1 ""))
      (fun v m => { m with RxPackets := v }) m
  | none => m

/-- The tx-batch matcher block: count and average size. -/
def txBatchStep (cs : List Char) (m : EnhancedPmdMetrics) : EnhancedPmdMetrics :=
  match findStringSubmatch txBatchRe cs with
  | some ms =>
    updOpt (parseFloatQ (ms.getD 2 ""))
      (fun v m => { m with AvgTxBatchSize := v })
      (updOpt (parseUint64 (ms.getD 1 ""))
        (fun v m => { m with TxBatches := v }) m)
  | none => m

/-- The tx-packets matcher block. -/
def txPacketsStep (cs : List Char) (m : EnhancedPmdMetrics) : EnhancedPmdMetrics :=
  match findStringSubmatch txPacketsRe cs with
  | some ms => updOpt (parseUint64 (ms.getD 1 ""))
      (fun v m => { m with TxPackets := v }) m
  | none => m

/-- The max-vhost-queue-length matcher block. -/
def maxVhostQStep (cs : List Char) (m : EnhancedPmdMetrics) : EnhancedPmdMetrics :=
  match findStringSubmatch maxVhostQRe cs with
  | some ms => updOpt (parseUint64 (ms.getD 1 ""))
      (fun v m => { m with MaxVhostQueueLength := v }) m
  | none => m

/-- The avg-vhost-queue-length matcher block. -/
def avgVhostQStep (cs : List Char) (m : EnhancedPmdMetrics) : EnhancedPmdMetrics :=
  match findStringSubmatch avgVhostQRe cs with
  | some ms => updOpt (parseFloatQ (ms.getD 1 ""))
      (fun v m => { m with AvgVhostQueueLength := v }) m
  | none => m

/-- The vhost-queue-full matcher block. -/
def vhostFullStep (cs : List Char) (m : EnhancedPmdMetrics) : EnhancedPmdMetrics :=
  match findStringSubmatch vhostFullRe cs with
  | some ms => updOpt (parseUint64 (ms.getD 1 ""))
      (fun v m => { m with VhostQueueFull := v }) m
  | none => m

/-- The upcalls matcher block: count from `matches[1]`, cycles from the
Mcycles capture `matches[3]`. -/
def upcallsStep (cs : List Char) (m : EnhancedPmdMetrics) : EnhancedPmdMetrics :=
  match findStringSubmatch upcallsRe cs with
  | some ms =>
    updOpt (parseFloatQ (ms.getD 3 ""))
      (fun v m => { m with UpcallCycles := uint64OfFloat (v * 1000000) })
      (updOpt (parseUint64 (ms.getD 1 ""))
        (fun v m => { m with Upcalls := v }) m)
  | none => m

/-- The avg-upcall-cycles matcher block. -/
def avgUpcallStep (cs : List Char) (m : EnhancedPmdMetrics) : EnhancedPmdMetrics :=
  match findStringSubmatch avgUpcallRe cs with
  | some ms => updOpt (parseFloatQ (ms.getD 1 ""))
      (fun v m => { m with AvgUpcallCycles := v }) m
  | none => m

/-- The vhost-tx-retries matcher block. -/
def txRetriesStep (cs : List Char) (m : EnhancedPmdMetrics) : EnhancedPmdMetrics :=
  match findStringSubmatch txRetriesRe cs with
  | some ms => updOpt (parseUint64 (ms.getD 1 ""))
      (fun v m => { m with VhostTxRetries := v }) m
  | none => m

/-- The vhost-tx-contention matcher block. -/
def txContentionStep (cs : List Char) (m : EnhancedPmdMetrics) : EnhancedPmdMetrics :=
  match findStringSubmatch txContentionRe cs with
  | some ms => updOpt (parseUint64 (ms.getD 1 ""))
      (fun v m => { m with VhostTxContention := v }) m
  | none => m

/-- The vhost-tx-irqs matcher block. -/
def txIrqsStep (cs : List Char) (m : EnhancedPmdMetrics) : EnhancedPmdMetrics :=
  match findStringSubmatch txIrqsRe cs with
  | some ms => updOpt (parseUint64 (ms.getD 1 ""))
      (fun v m => { m with VhostTxIrqs := v }) m
  | none => m

/-- The exact-match-hit matcher block. -/
def exactHitStep (cs : List Char) (m : EnhancedPmdMetrics) : EnhancedPmdMetrics :=
  match findStringSubmatch exactHitRe cs with
  | some ms => updOpt (parseUint64 (ms.getD 1 ""))
      (fun v m => { m with ExactMatchHit := v }) m
  | none => m

/-- The masked-hit matcher block. -/
def maskedHitStep (cs : List Char) (m : EnhancedPmdMetrics) : EnhancedPmdMetrics :=
  match findStringSubmatch maskedHitRe cs with
  | some ms => updOpt (parseUint64 (ms.getD 1 ""))
      (fun v m => { m with MaskedHit := v }) m
  | none => m

/-- The miss matcher block. -/
def missStep (cs : List Char) (m : EnhancedPmdMetrics) : EnhancedPmdMetrics :=
  match findStringSubmatch missRe cs with
  | some ms => updOpt (parseUint64 (ms.getD 1 ""))
      (fun v m => { m with Miss := v }) m
  | none => m

/-- The lost matcher block. -/
def lostStep (cs : List Char) (m : EnhancedPmdMetrics) : EnhancedPmdMetrics :=
  match findStringSubmatch lostRe cs with
  | some ms => updOpt (parseUint64 (ms.getD 1 ""))
      (fun v m => { m with Lost := v }) m
  | none => m

/-- The suspicious-iterations matcher block. -/
def suspiciousStep (cs : List Char) (m : EnhancedPmdMetrics) : EnhancedPmdMetrics :=
  match findStringSubmatch suspiciousRe cs with
  | some ms =>
    updOpt (parseFloatQ (ms.getD 2 ""))
      (fun v m => { m with SuspiciousPercent := v })
      (updOpt (parseUint64 (ms.getD 1 ""))
        (fun v m => { m with SuspiciousIterations := v }) m)
  | none => m

/-- All field-matcher blocks of `parseEnhancedPmdOutput`, in source
order.  The Go loop has no `continue` between these blocks, so every
block is offered each non-header line. -/
def applyFieldMatchers (cs : List Char) (m : EnhancedPmdMetrics) :
    EnhancedPmdMetrics :=
  suspiciousStep cs (lostStep cs (missStep cs (maskedHitStep cs
    (exactHitStep cs (txIrqsStep cs (txContentionStep cs (txRetriesStep cs
      (avgUpcallStep cs (upcallsStep cs (vhostFullStep cs (avgVhostQStep cs
        (maxVhostQStep cs (txPacketsStep cs (txBatchStep cs (rxPacketsStep cs
          (rxBatchStep cs (pktsPerBatchStep cs (cyclesPerPktStep cs
            (pktsPerItStep cs (cyclesPerItStep cs (sleepIterStep cs
              (iterationsStep cs (busyCyclesStep cs (idleCyclesStep cs
                (cpuUtilStep cs m)))))))))))))))))))))))))

/-- Which histogram map the internal `currentHistogram` pointer refers
to. -/
inductive HistKind : Type
  | cycles
  | packets
  | batch
deriving DecidableEq

/-- The `switch strings.ToLower(matches[1])` dispatch of the histogram
section header. -/
def histKindOf (s : String) : Option HistKind :=
  if s = "cycles" then some .cycles
  else if s = "packets" then some .packets
  else if s = "batch" then some .batch
  else none

/-- Histogram-entry assignment `(*currentHistogram)[matches[1]] = val`
through the active-histogram pointer. -/
def histInsert (hk : HistKind) (key : String) (v : Nat)
    (m : EnhancedPmdMetrics) : EnhancedPmdMetrics :=
  match hk with
  | .cycles => { m with CyclesHistogram := mapInsert m.CyclesHistogram key v }
  | .packets => { m with PacketsHistogram := mapInsert m.PacketsHistogram key v }
  | .batch => { m with BatchSizeHistogram := mapInsert m.BatchSizeHistogram key v }

/-- Scanner state of `parseEnhancedPmdOutput`: accumulated records, the
record under construction, and the active-histogram pointer. -/
structure ScanState where
  metrics : List EnhancedPmdMetrics
  currentMetric : Option EnhancedPmdMetrics
  currentHistogram : Option HistKind
deriving DecidableEq

/-- Processing of one non-header line against the active record: every
field matcher runs, then a histogram section header switches the
histogram pointer (and skips entry parsing via `continue`), and failing
that a histogram entry is parsed into the active histogram.  Returns the
updated record and the updated histogram pointer. -/
def lineUpdate (hist : Option HistKind) (cs : List Char)
    (m : EnhancedPmdMetrics) : EnhancedPmdMetrics × Option HistKind :=
  let m' := applyFieldMatchers cs m
  match findStringSubmatch histogramRe cs with
  | some ms => (m', histKindOf (asciiLower (ms.getD 1 "")))
  | none =>
    match hist with
    | some hk =>
      match findStringSubmatch histogramEntryRe cs with
      | some ms =>
        (updOpt (parseUint64 (ms.getD 2 ""))
          (fun v m => histInsert hk (ms.getD 1 "") v m) m', hist)
      | none => (m', hist)
    | none => (m', hist)

/-- One loop iteration of `parseEnhancedPmdOutput`.  A thread-header line
appends the current record to the output list unchanged (no derived-field
computation happens here) and starts a fresh record with a cleared
histogram pointer.  Other lines are skipped when no record is active and
otherwise processed by `lineUpdate`. -/
def enhancedStep (st : ScanState) (line : String) : ScanState :=
  match findStringSubmatch pmdHeaderRe line.toList with
  | some ms =>
    { metrics := st.metrics ++ st.currentMetric.toList,
      currentMetric := some (newEnhanced (ms.getD 1 "") (ms.getD 2 "")),
      currentHistogram := none }
  | none =>
    match st.currentMetric with
    | none => st
    | some m =>
      { st with
        currentMetric := some (lineUpdate st.currentHistogram line.toList m).1,
        currentHistogram := (lineUpdate st.currentHistogram line.toList m).2 }

/-- First half of the end-of-input derived-field computation
(`// Calculate total cycles and packets if not set`): `TotalCycles`
defaults to `BusyCycles + IdleCycles` when zero. -/
def finalizeCycles (m : EnhancedPmdMetrics) : EnhancedPmdMetrics :=
  if m.TotalCycles = 0 then
    { m with TotalCycles := u64add m.BusyCycles m.IdleCycles }
  else m

/-- Second derived field: `TotalPackets` defaults to
`uint64(float64(Iterations) * PacketsPerIteration)` when zero with
`Iterations > 0`. -/
def finalizePackets (m : EnhancedPmdMetrics) : EnhancedPmdMetrics :=
  if m.TotalPackets = 0 ∧ m.Iterations > 0 then
    { m with TotalPackets :=
        uint64OfFloat ((m.Iterations : ℚ) * m.PacketsPerIteration) }
  else m

/-- Both derived-field updates, in source order. -/
def finalizeEnhanced (m : EnhancedPmdMetrics) : EnhancedPmdMetrics :=
  finalizePackets (finalizeCycles m)

/-- `parseEnhancedPmdOutput`: scan all lines; the last record (and only
it) gets the derived-field computation before being appended. -/
def parseEnhancedPmdOutput (output : String) : List EnhancedPmdMetrics :=
  let st := (linesOf output).foldl enhancedStep ⟨[], none, none⟩
  match st.currentMetric with
  | some m => st.metrics ++ [finalizeEnhanced m]
  | none => st.metrics

/-- `enrichWithStats`: the Go function's body is empty (a stub with only
comments), so the records are returned unchanged. -/
def enrichWithStats (metrics : List EnhancedPmdMetrics) (statsOutput : String) :
    List EnhancedPmdMetrics :=
  metrics

/-- `GetEnhancedPmdMetrics`, with the two `ovs-appctl` invocations
(`dpif-netdev/pmd-perf-show`, then `dpif-netdev/pmd-stats-show`)
abstracted as `cmdResult` and `statsResult`.  A primary-command error
whose message contains `"exit status"` yields an empty list with nil
error; any other primary error is returned wrapped; a stats-command
failure is swallowed (enrichment is skipped). -/
def GetEnhancedPmdMetrics (cmdResult statsResult : Except String String) :
    Except String (List EnhancedPmdMetrics) :=
  match cmdResult with
  | .error msg =>
    if containsSubstr msg "exit status" then .ok []
    else .error ("failed to execute pmd-perf-show: " ++ msg)
  | .ok output =>
    let metrics := parseEnhancedPmdOutput output
    match statsResult with
    | .ok statsOutput => .ok (enrichWithStats metrics statsOutput)
    | .error _ => .ok metrics

/-- The fixed list of drop counters extracted from `coverage/show`
(`dropTypes` in `GetDropCounters`). -/
def dropTypes : List String :=
  ["datapath_drop_upcall_error",
   "datapath_drop_lock_error",
   "datapath_drop_rx_invalid_packet",
   "datapath_drop_meter",
   "datapath_drop_userspace_action_error",
   "datapath_drop_tunnel_push_error",
   "datapath_drop_tunnel_pop_error",
   "datapath_drop_recirc_error",
   "datapath_drop_invalid_port",
   "datapath_drop_invalid_tnl_port",
   "datapath_drop_sample_error",
   "datapath_drop_nsh_decap_error",
   "drop_action_of_pipeline",
   "drop_action_bridge_not_found",
   "drop_action_recursion_too_deep",
   "drop_action_too_many_resubmit",
   "drop_action_stack_too_deep",
   "drop_action_no_recirculation",
   "drop_action_recirculation_conflict",
   "drop_action_too_many_mpls_labels",
   "drop_action_invalid_tunnel_metadata",
   "drop_action_unsupported_packet_type",
   "drop_action_congestion",
   "drop_action_forwarding_disabled"]

/-- Pattern `^(\S+)\s+(\d+)`.  The leading `^` anchors the match at the
start of the (trimmed) line, so the search below uses `matchAt` at
position 0 instead of an unanchored scan. -/
def coverageRe : Regex :=
  Regex.cat [.group (.plus .nonspace), .plus .space, .group (.plus .digit)]

/-- One loop iteration of the `GetDropCounters` scan: trim the line,
match the coverage pattern at the start, and record the counter when the
leading token is one of the fixed drop reasons (Go's `dropTypeMap`
lookup, modelled directly as list membership). -/
def dropStep (acc : List (String × Nat)) (rawLine : String) :
    List (String × Nat) :=
  let line := trimSpace rawLine
  match matchAt coverageRe line.toList with
  | some ms =>
    let eventName := ms.getD 1 ""
    if dropTypes.contains eventName then
      updOpt (parseUint64 (ms.getD 2 ""))
        (fun v acc => mapInsert acc eventName v) acc
    else acc
  | none => acc

/-- The pure extraction performed by `GetDropCounters` on the
`coverage/show` output.  The resulting `map[string]uint64` is modelled as
an association list in insertion order (Go map iteration order is
unspecified; no claim depends on it). -/
def extractDropCounters (output : String) : List (String × Nat) :=
  (linesOf output).foldl dropStep []

/-- `GetDropCounters`, with the `exec.Command("ovs-appctl",
"coverage/show").Output()` call abstracted as `cmdResult`.  Unlike the
PMD sources, a command failure here is returned to the caller as an
error. -/
def GetDropCounters (cmdResult : Except String String) :
    Except String (List (String × Nat)) :=
  match cmdResult with
  | .error msg => .error ("failed to get coverage: " ++ msg)
  | .ok output => .ok (extractDropCounters output)

end EnhancedPmd
/-- An `updOpt` step preserves any projection that each update
preserves. -/
theorem key_updOpt {α β γ : Type} (key : β → γ) (o : Option α)
    (f : α → β → β) (m : β) (h : ∀ v m', key (f v m') = key m') :
    key (updOpt o f m) = key m := by
  cases o with
  | none => rfl
  | some v => exact h v m

namespace BasicPmd

/-- The fields of a basic record that no field-matcher block touches:
the identity pair set at the thread header. -/
def keyB (m : PmdPerformanceMetrics) : String × String :=
  (m.NumaID, m.PmdID)

theorem keyB_iterationsStep (cs : List Char) (m : PmdPerformanceMetrics) :
    keyB (iterationsStep cs m) = keyB m := by
  unfold iterationsStep
  split
  · exact key_updOpt keyB _ _ _ (fun v m' => rfl)
  · rfl

theorem keyB_busyCyclesStep (cs : List Char) (m : PmdPerformanceMetrics) :
    keyB (busyCyclesStep cs m) = keyB m := by
  unfold busyCyclesStep
  split
  · exact key_updOpt keyB _ _ _ (fun v m' => rfl)
  · rfl

theorem keyB_cyclesPerItStep (cs : List Char) (m : PmdPerformanceMetrics) :
    keyB (cyclesPerItStep cs m) = keyB m := by
  unfold cyclesPerItStep
  split
  · exact key_updOpt keyB _ _ _ (fun v m' => rfl)
  · rfl

theorem keyB_pktsPerItStep (cs : List Char) (m : PmdPerformanceMetrics) :
    keyB (pktsPerItStep cs m) = keyB m := by
  unfold pktsPerItStep
  split
  · exact key_updOpt keyB _ _ _ (fun v m' => rfl)
  · rfl

theorem keyB_cyclesPerPktStep (cs : List Char) (m : PmdPerformanceMetrics) :
    keyB (cyclesPerPktStep cs m) = keyB m := by
  unfold cyclesPerPktStep
  split
  · exact key_updOpt keyB _ _ _ (fun v m' => rfl)
  · rfl

theorem keyB_pktsPerBatchStep (cs : List Char) (m : PmdPerformanceMetrics) :
    keyB (pktsPerBatchStep cs m) = keyB m := by
  unfold pktsPerBatchStep
  split
  · exact key_updOpt keyB _ _ _ (fun v m' => rfl)
  · rfl

theorem keyB_maxVhostQStep (cs : List Char) (m : PmdPerformanceMetrics) :
    keyB (maxVhostQStep cs m) = keyB m := by
  unfold maxVhostQStep
  split
  · exact key_updOpt keyB _ _ _ (fun v m' => rfl)
  · rfl

theorem keyB_upcallsStep (cs : List Char) (m : PmdPerformanceMetrics) :
    keyB (upcallsStep cs m) = keyB m := by
  unfold upcallsStep
  split
  · refine (key_updOpt keyB _ _ _ ?_).trans (key_updOpt keyB _ _ _ ?_)
    · intro v m'; rfl
    · intro v m'; rfl
  · rfl

theorem keyB_txRetriesStep (cs : List Char) (m : PmdPerformanceMetrics) :
    keyB (txRetriesStep cs m) = keyB m := by
  unfold txRetriesStep
  split
  · exact key_updOpt keyB _ _ _ (fun v m' => rfl)
  · rfl

theorem keyB_txContentionStep (cs : List Char) (m : PmdPerformanceMetrics) :
    keyB (txContentionStep cs m) = keyB m := by
  unfold txContentionStep
  split
  · exact key_updOpt keyB _ _ _ (fun v m' => rfl)
  · rfl

theorem keyB_txIrqsStep (cs : List Char) (m : PmdPerformanceMetrics) :
    keyB (txIrqsStep cs m) = keyB m := by
  unfold txIrqsStep
  split
  · exact key_updOpt keyB _ _ _ (fun v m' => rfl)
  · rfl

/-- No field-matcher block of `parsePmdPerfOutput` changes the identity
fields. -/
theorem keyB_applyFieldMatchers (cs : List Char) (m : PmdPerformanceMetrics) :
    keyB (applyFieldMatchers cs m) = keyB m := by
  unfold applyFieldMatchers
  rw [keyB_txIrqsStep, keyB_txContentionStep, keyB_txRetriesStep,
    keyB_upcallsStep, keyB_maxVhostQStep, keyB_pktsPerBatchStep,
    keyB_cyclesPerPktStep, keyB_pktsPerItStep, keyB_cyclesPerItStep,
    keyB_busyCyclesStep, keyB_iterationsStep]

/-- Identity keys of an optional current record. -/
def keyOptB (o : Option PmdPerformanceMetrics) : List (String × String) :=
  o.toList.map keyB

/-- The scan of `parsePmdPerfOutput` appends exactly one record per
thread-header line, in encounter order, carrying that header's capture
groups as identity. -/
theorem basicScan_keys (lines : List String) (st : BScanState) :
    ((lines.foldl basicStep st).metrics).map keyB
      ++ keyOptB (lines.foldl basicStep st).currentMetric
    = st.metrics.map keyB ++ keyOptB st.currentMetric
      ++ (lines.filterMap headerCaps).map (fun p => (p.1, p.2)) := by
  induction lines generalizing st with
  | nil => simp
  | cons l rest ih =>
    rw [List.foldl_cons, List.filterMap_cons]
    cases h : findStringSubmatch pmdHeaderRe l.toList with
    | some ms =>
      have hc : headerCaps l = some (ms.getD 1 "", ms.getD 2 "") := by
        unfold headerCaps; rw [h]; rfl
      have hstep : basicStep st l =
          ⟨st.metrics ++ st.currentMetric.toList,
            some (newBasic (ms.getD 1 "") (ms.getD 2 ""))⟩ := by
        simp only [basicStep, h]
      rw [hstep, ih, hc]
      simp [keyOptB, keyB, newBasic, List.map_append]
    | none =>
      have hc : headerCaps l = none := by
        unfold headerCaps; rw [h]; rfl
      rw [hc]
      cases hcur : st.currentMetric with
      | none =>
        have hstep : basicStep st l = st := by
          simp only [basicStep, h, hcur]
        rw [hstep, ih, hcur]
      | some m =>
        have hstep : basicStep st l =
            ⟨st.metrics, some (applyFieldMatchers l.toList m)⟩ := by
          simp only [basicStep, h, hcur]
        rw [hstep, ih]
        simp [keyOptB, keyB_applyFieldMatchers, hcur]

/-- Identity list of the records returned by `parsePmdPerfOutput`: one
per header line, in order, with `NumaID` and `PmdID` from the capture
groups. -/
theorem basic_ids_eq (output : String) :
    (parsePmdPerfOutput output).1.map keyB
    = ((linesOf output).filterMap headerCaps).map (fun p => (p.1, p.2)) := by
  have h := basicScan_keys (linesOf output) ⟨[], none⟩
  unfold parsePmdPerfOutput
  simpa [keyOptB, List.map_append] using h

end BasicPmd

namespace EnhancedPmd

/-- The fields of an enhanced record that no field-matcher block touches:
the identity triple set at the thread header, plus `TotalCycles` and
`TotalPackets`, which only the end-of-input derived-field computation
writes. -/
def keyE (m : EnhancedPmdMetrics) : String × String × String × Nat × Nat :=
  (m.NumaID, m.CoreID, m.PmdID, m.TotalCycles, m.TotalPackets)

theorem keyE_cpuUtilStep (cs : List Char) (m : EnhancedPmdMetrics) :
    keyE (cpuUtilStep cs m) = keyE m := by
  unfold cpuUtilStep
  split
  · exact key_updOpt keyE _ _ _ (fun v m' => rfl)
  · rfl

theorem keyE_idleCyclesStep (cs : List Char) (m : EnhancedPmdMetrics) :
    keyE (idleCyclesStep cs m) = keyE m := by
  unfold idleCyclesStep
  split
  · exact key_updOpt keyE _ _ _ (fun v m' => rfl)
  · rfl

theorem keyE_busyCyclesStep (cs : List Char) (m : EnhancedPmdMetrics) :
    keyE (busyCyclesStep cs m) = keyE m := by
  unfold busyCyclesStep
  split
  · refine (key_updOpt keyE _ _ _ ?_).trans (key_updOpt keyE _ _ _ ?_)
    · intro v m'; rfl
    · intro v m'; rfl
  · rfl

theorem keyE_iterationsStep (cs : List Char) (m : EnhancedPmdMetrics) :
    keyE (iterationsStep cs m) = keyE m := by
  unfold iterationsStep
  split
  · refine (key_updOpt keyE _ _ _ ?_).trans (key_updOpt keyE _ _ _ ?_)
    · intro v m'; rfl
    · intro v m'; rfl
  · rfl

theorem keyE_sleepIterStep (cs : List Char) (m : EnhancedPmdMetrics) :
    keyE (sleepIterStep cs m) = keyE m := by
  unfold sleepIterStep
  split
  · exact key_updOpt keyE _ _ _ (fun v m' => rfl)
  · rfl

theorem keyE_cyclesPerItStep (cs : List Char) (m : EnhancedPmdMetrics) :
    keyE (cyclesPerItStep cs m) = keyE m := by
  unfold cyclesPerItStep
  split
  · exact key_updOpt keyE _ _ _ (fun v m' => rfl)
  · rfl

theorem keyE_pktsPerItStep (cs : List Char) (m : EnhancedPmdMetrics) :
    keyE (pktsPerItStep cs m) = keyE m := by
  unfold pktsPerItStep
  split
  · exact key_updOpt keyE _ _ _ (fun v m' => rfl)
  · rfl

theorem keyE_cyclesPerPktStep (cs : List Char) (m : EnhancedPmdMetrics) :
    keyE (cyclesPerPktStep cs m) = keyE m := by
  unfold cyclesPerPktStep
  split
  · exact key_updOpt keyE _ _ _ (fun v m' => rfl)
  · rfl

theorem keyE_pktsPerBatchStep (cs : List Char) (m : EnhancedPmdMetrics) :
    keyE (pktsPerBatchStep cs m) = keyE m := by
  unfold pktsPerBatchStep
  split
  · exact key_updOpt keyE _ _ _ (fun v m' => rfl)
  · rfl

theorem keyE_rxBatchStep (cs : List Char) (m : EnhancedPmdMetrics) :
    keyE (rxBatchStep cs m) = keyE m := by
  unfold rxBatchStep
  split
  · refine (key_updOpt keyE _ _ _ ?_).trans
      ((key_updOpt keyE _ _ _ ?_).trans (key_updOpt keyE _ _ _ ?_))
    · intro v m'; rfl
    · intro v m'; rfl
    · intro v m'; rfl
  · rfl

theorem keyE_rxPacketsStep (cs : List Char) (m : EnhancedPmdMetrics) :
    keyE (rxPacketsStep cs m) = keyE m := by
  unfold rxPacketsStep
  split
  · exact key_updOpt keyE _ _ _ (fun v m' => rfl)
  · rfl

theorem keyE_txBatchStep (cs : List Char) (m : EnhancedPmdMetrics) :
    keyE (txBatchStep cs m) = keyE m := by
  unfold txBatchStep
  split
  · refine (key_updOpt keyE _ _ _ ?_).trans (key_updOpt keyE _ _ _ ?_)
    · intro v m'; rfl
    · intro v m'; rfl
  · rfl

theorem keyE_txPacketsStep (cs : List Char) (m : EnhancedPmdMetrics) :
    keyE (txPacketsStep cs m) = keyE m := by
  unfold txPacketsStep
  split
  · exact key_updOpt keyE _ _ _ (fun v m' => rfl)
  · rfl

theorem keyE_maxVhostQStep (cs : List Char) (m : EnhancedPmdMetrics) :
    keyE (maxVhostQStep cs m) = keyE m := by
  unfold maxVhostQStep
  split
  · exact key_updOpt keyE _ _ _ (fun v m' => rfl)
  · rfl

theorem keyE_avgVhostQStep (cs : List Char) (m : EnhancedPmdMetrics) :
    keyE (avgVhostQStep cs m) = keyE m := by
  unfold avgVhostQStep
  split
  · exact key_updOpt keyE _ _ _ (fun v m' => rfl)
  · rfl

theorem keyE_vhostFullStep (cs : List Char) (m : EnhancedPmdMetrics) :
    keyE (vhostFullStep cs m) = keyE m := by
  unfold vhostFullStep
  split
  · exact key_updOpt keyE _ _ _ (fun v m' => rfl)
  · rfl

theorem keyE_upcallsStep (cs : List Char) (m : EnhancedPmdMetrics) :
    keyE (upcallsStep cs m) = keyE m := by
  unfold upcallsStep
  split
  · refine (key_updOpt keyE _ _ _ ?_).trans (key_updOpt keyE _ _ _ ?_)
    · intro v m'; rfl
    · intro v m'; rfl
  · rfl

theorem keyE_avgUpcallStep (cs : List Char) (m : EnhancedPmdMetrics) :
    keyE (avgUpcallStep cs m) = keyE m := by
  unfold avgUpcallStep
  split
  · exact key_updOpt keyE _ _ _ (fun v m' => rfl)
  · rfl

theorem keyE_txRetriesStep (cs : List Char) (m : EnhancedPmdMetrics) :
    keyE (txRetriesStep cs m) = keyE m := by
  unfold txRetriesStep
  split
  · exact key_updOpt keyE _ _ _ (fun v m' => rfl)
  · rfl

theorem keyE_txContentionStep (cs : List Char) (m : EnhancedPmdMetrics) :
    keyE (txContentionStep cs m) = keyE m := by
  unfold txContentionStep
  split
  · exact key_updOpt keyE _ _ _ (fun v m' => rfl)
  · rfl

theorem keyE_txIrqsStep (cs : List Char) (m : EnhancedPmdMetrics) :
    keyE (txIrqsStep cs m) = keyE m := by
  unfold txIrqsStep
  split
  · exact key_updOpt keyE _ _ _ (fun v m' => rfl)
  · rfl

theorem keyE_exactHitStep (cs : List Char) (m : EnhancedPmdMetrics) :
    keyE (exactHitStep cs m) = keyE m := by
  unfold exactHitStep
  split
  · exact key_updOpt keyE _ _ _ (fun v m' => rfl)
  · rfl

theorem keyE_maskedHitStep (cs : List Char) (m : EnhancedPmdMetrics) :
    keyE (maskedHitStep cs m) = keyE m := by
  unfold maskedHitStep
  split
  · exact key_updOpt keyE _ _ _ (fun v m' => rfl)
  · rfl

theorem keyE_missStep (cs : List Char) (m : EnhancedPmdMetrics) :
    keyE (missStep cs m) = keyE m := by
  unfold missStep
  split
  · exact key_updOpt keyE _ _ _ (fun v m' => rfl)
  · rfl

theorem keyE_lostStep (cs : List Char) (m : EnhancedPmdMetrics) :
    keyE (lostStep cs m) = keyE m := by
  unfold lostStep
  split
  · exact key_updOpt keyE _ _ _ (fun v m' => rfl)
  · rfl

theorem keyE_suspiciousStep (cs : List Char) (m : EnhancedPmdMetrics) :
    keyE (suspiciousStep cs m) = keyE m := by
  unfold suspiciousStep
  split
  · refine (key_updOpt keyE _ _ _ ?_).trans (key_updOpt keyE _ _ _ ?_)
    · intro v m'; rfl
    · intro v m'; rfl
  · rfl

/-- No field-matcher block of `parseEnhancedPmdOutput` changes the
identity fields, `TotalCycles`, or `TotalPackets`. -/
theorem keyE_applyFieldMatchers (cs : List Char) (m : EnhancedPmdMetrics) :
    keyE (applyFieldMatchers cs m) = keyE m := by
  unfold applyFieldMatchers
  rw [keyE_suspiciousStep, keyE_lostStep, keyE_missStep, keyE_maskedHitStep,
    keyE_exactHitStep, keyE_txIrqsStep, keyE_txContentionStep,
    keyE_txRetriesStep, keyE_avgUpcallStep, keyE_upcallsStep,
    keyE_vhostFullStep, keyE_avgVhostQStep, keyE_maxVhostQStep,
    keyE_txPacketsStep, keyE_txBatchStep, keyE_rxPacketsStep,
    keyE_rxBatchStep, keyE_pktsPerBatchStep, keyE_cyclesPerPktStep,
    keyE_pktsPerItStep, keyE_cyclesPerItStep, keyE_sleepIterStep,
    keyE_iterationsStep, keyE_busyCyclesStep, keyE_idleCyclesStep,
    keyE_cpuUtilStep]

/-- Histogram-entry insertion only touches the histogram maps. -/
theorem keyE_histInsert (hk : HistKind) (key : String) (v : Nat)
    (m : EnhancedPmdMetrics) : keyE (histInsert hk key v m) = keyE m := by
  cases hk <;> rfl

/-- Processing a non-header line never changes the identity fields,
`TotalCycles`, or `TotalPackets` of the active record. -/
theorem keyE_lineUpdate (hist : Option HistKind) (cs : List Char)
    (m : EnhancedPmdMetrics) : keyE (lineUpdate hist cs m).1 = keyE m := by
  unfold lineUpdate
  split
  · exact keyE_applyFieldMatchers cs m
  · split
    · split
      · refine (key_updOpt keyE _ _ _ ?_).trans (keyE_applyFieldMatchers cs m)
        intro v m'; exact keyE_histInsert _ _ _ _
      · exact keyE_applyFieldMatchers cs m
    · exact keyE_applyFieldMatchers cs m

end EnhancedPmd

namespace EnhancedPmd

/-- Key of the fresh record created for a header with captures `p`. -/
def headerKeyE (p : String × String) : String × String × String × Nat × Nat :=
  (p.1, p.2, p.2, 0, 0)

/-- Keys of an optional current record. -/
def keyOptE (o : Option EnhancedPmdMetrics) :
    List (String × String × String × Nat × Nat) :=
  o.toList.map keyE

/-- The scan of `parseEnhancedPmdOutput` appends exactly one record per
thread-header line, in encounter order; each record keeps the identity of
its header's capture groups and zero `TotalCycles`/`TotalPackets`
throughout the scan. -/
theorem enhancedScan_keys (lines : List String) (st : ScanState) :
    ((lines.foldl enhancedStep st).metrics).map keyE
      ++ keyOptE (lines.foldl enhancedStep st).currentMetric
    = st.metrics.map keyE ++ keyOptE st.currentMetric
      ++ (lines.filterMap headerCaps).map headerKeyE := by
  induction lines generalizing st with
  | nil => simp
  | cons l rest ih =>
    rw [List.foldl_cons, List.filterMap_cons]
    cases h : findStringSubmatch pmdHeaderRe l.toList with
    | some ms =>
      have hc : headerCaps l = some (ms.getD 1 "", ms.getD 2 "") := by
        unfold headerCaps; rw [h]; rfl
      have hstep : enhancedStep st l =
          ⟨st.metrics ++ st.currentMetric.toList,
            some (newEnhanced (ms.getD 1 "") (ms.getD 2 "")), none⟩ := by
        simp only [enhancedStep, h]
      rw [hstep, ih, hc]
      simp [keyOptE, keyE, newEnhanced, headerKeyE, List.map_append]
    | none =>
      have hc : headerCaps l = none := by
        unfold headerCaps; rw [h]; rfl
      rw [hc]
      cases hcur : st.currentMetric with
      | none =>
        have hstep : enhancedStep st l = st := by
          simp only [enhancedStep, h, hcur]
        rw [hstep, ih, hcur]
      | some m =>
        have hstep : enhancedStep st l =
            ⟨st.metrics, some (lineUpdate st.currentHistogram l.toList m).1,
              (lineUpdate st.currentHistogram l.toList m).2⟩ := by
          simp only [enhancedStep, h, hcur]
        rw [hstep, ih]
        simp [keyOptE, keyE_lineUpdate, hcur]

/-- From the initial state, the current record can only be `none` while
no header has been seen, i.e. while the output list is still empty. -/
theorem enhancedScan_none_nil (lines : List String) (st : ScanState)
    (h0 : st.currentMetric = none → st.metrics = []) :
    (lines.foldl enhancedStep st).currentMetric = none →
      (lines.foldl enhancedStep st).metrics = [] := by
  induction lines generalizing st with
  | nil => exact h0
  | cons l rest ih =>
    rw [List.foldl_cons]
    refine ih _ ?_
    intro hnone
    cases h : findStringSubmatch pmdHeaderRe l.toList with
    | some ms =>
      have hstep : enhancedStep st l =
          ⟨st.metrics ++ st.currentMetric.toList,
            some (newEnhanced (ms.getD 1 "") (ms.getD 2 "")), none⟩ := by
        simp only [enhancedStep, h]
      rw [hstep] at hnone
      simp at hnone
    | none =>
      cases hcur : st.currentMetric with
      | none =>
        have hstep : enhancedStep st l = st := by
          simp only [enhancedStep, h, hcur]
        rw [hstep]
        exact h0 hcur
      | some m =>
        have hstep : enhancedStep st l =
            ⟨st.metrics, some (lineUpdate st.currentHistogram l.toList m).1,
              (lineUpdate st.currentHistogram l.toList m).2⟩ := by
          simp only [enhancedStep, h, hcur]
        rw [hstep] at hnone
        simp at hnone

/-- The identity triple of a record. -/
def idsE (m : EnhancedPmdMetrics) : String × String × String :=
  (m.NumaID, m.CoreID, m.PmdID)

/-- The derived-field computation never changes the identity fields. -/
theorem idsE_finalize (m : EnhancedPmdMetrics) :
    idsE (finalizeEnhanced m) = idsE m := by
  unfold finalizeEnhanced finalizePackets finalizeCycles
  split <;> split <;> rfl

end EnhancedPmd

namespace EnhancedPmd

/-- Projection from the preserved key to the identity triple. -/
def projIds (k : String × String × String × Nat × Nat) :
    String × String × String :=
  (k.1, k.2.1, k.2.2.1)

/-- The records returned by `parseEnhancedPmdOutput` carry, in header
order, exactly the identities captured by the header lines
(`NumaID = matches[1]`, `CoreID = PmdID = matches[2]`). -/
theorem enhanced_ids_eq (output : String) :
    (parseEnhancedPmdOutput output).map idsE
    = ((linesOf output).filterMap headerCaps).map (fun p => (p.1, p.2, p.2)) := by
  have h := enhancedScan_keys (linesOf output) ⟨[], none, none⟩
  have hcomp : projIds ∘ keyE = idsE := funext (fun m => rfl)
  have hcomp2 : projIds ∘ headerKeyE = (fun p => (p.1, p.2, p.2)) :=
    funext (fun p => rfl)
  simp only [parseEnhancedPmdOutput]
  cases hcur : ((linesOf output).foldl enhancedStep ⟨[], none, none⟩).currentMetric with
  | none =>
    rw [hcur] at h
    simp only [keyOptE, Option.toList_none, List.map_nil, List.append_nil,
      List.map_nil, List.nil_append] at h
    rw [← hcomp, ← List.map_map, h, List.map_map, hcomp2]
  | some m =>
    rw [hcur] at h
    simp only [keyOptE, Option.toList_some, Option.toList_none, List.map_cons,
      List.map_nil, List.nil_append] at h
    have hgoal : (((linesOf output).foldl enhancedStep ⟨[], none, none⟩).metrics
          ++ [finalizeEnhanced m]).map idsE
        = ((((linesOf output).foldl enhancedStep ⟨[], none, none⟩).metrics).map keyE
          ++ [keyE m]).map projIds := by
      rw [List.map_append, List.map_append, List.map_map, hcomp]
      have hf := idsE_finalize m
      simp only [idsE, Prod.mk.injEq] at hf
      simp [projIds, idsE, keyE, hf.1, hf.2.1, hf.2.2]
    rw [hgoal, h, List.map_map, hcomp2]

/-- Every record key reachable by the scan comes from a header line:
`CoreID = PmdID` and both total fields are still zero. -/
theorem enhanced_scan_inv (output : String) (m : EnhancedPmdMetrics)
    (hm : keyE m ∈
      (((linesOf output).foldl enhancedStep ⟨[], none, none⟩).metrics).map keyE
      ++ keyOptE ((linesOf output).foldl enhancedStep ⟨[], none, none⟩).currentMetric) :
    m.CoreID = m.PmdID ∧ m.TotalCycles = 0 ∧ m.TotalPackets = 0 := by
  have h := enhancedScan_keys (linesOf output) ⟨[], none, none⟩
  rw [h] at hm
  simp only [keyOptE, Option.toList_none, List.map_nil, List.append_nil,
    List.nil_append, List.mem_map] at hm
  obtain ⟨p, _, hk⟩ := hm
  have h1 : (headerKeyE p).2.1 = (keyE m).2.1 := by rw [hk]
  have h2 : (headerKeyE p).2.2.1 = (keyE m).2.2.1 := by rw [hk]
  have h3 : (headerKeyE p).2.2.2.1 = (keyE m).2.2.2.1 := by rw [hk]
  have h4 : (headerKeyE p).2.2.2.2 = (keyE m).2.2.2.2 := by rw [hk]
  exact ⟨h1.symm.trans h2, h3.symm, h4.symm⟩

/-- Membership of the key list for records in the scanned output list. -/
theorem enhanced_scanned_mem (output : String) (m : EnhancedPmdMetrics)
    (hm : m ∈ ((linesOf output).foldl enhancedStep ⟨[], none, none⟩).metrics) :
    m.CoreID = m.PmdID ∧ m.TotalCycles = 0 ∧ m.TotalPackets = 0 :=
  enhanced_scan_inv output m
    (List.mem_append_left _ (List.mem_map_of_mem keyE hm))

/-- The current record at end of scan (when present) also satisfies the
invariant. -/
theorem enhanced_current_inv (output : String) (m : EnhancedPmdMetrics)
    (hm : ((linesOf output).foldl enhancedStep ⟨[], none, none⟩).currentMetric
      = some m) :
    m.CoreID = m.PmdID ∧ m.TotalCycles = 0 ∧ m.TotalPackets = 0 := by
  refine enhanced_scan_inv output m (List.mem_append_right _ ?_)
  simp [keyOptE, hm]

/-- Computation of the derived fields on a record whose totals are still
zero (as every record reaching the end of the scan is). -/
theorem finalize_of_zero (m0 : EnhancedPmdMetrics)
    (hTC : m0.TotalCycles = 0) (hTP : m0.TotalPackets = 0) :
    (finalizeEnhanced m0).TotalCycles
      = u64add (finalizeEnhanced m0).BusyCycles (finalizeEnhanced m0).IdleCycles
    ∧ (0 < (finalizeEnhanced m0).Iterations →
        (finalizeEnhanced m0).TotalPackets
          = uint64OfFloat (((finalizeEnhanced m0).Iterations : ℚ)
              * (finalizeEnhanced m0).PacketsPerIteration))
    ∧ ((finalizeEnhanced m0).Iterations = 0 →
        (finalizeEnhanced m0).TotalPackets = 0) := by
  unfold finalizeEnhanced finalizePackets finalizeCycles
  rw [if_pos hTC]
  by_cases hIt : 0 < m0.Iterations
  · rw [if_pos ⟨hTP, hIt⟩]
    refine ⟨rfl, fun _ => rfl, fun h0 => ?_⟩
    exact absurd h0 (Nat.pos_iff_ne_zero.mp hIt)
  · rw [if_neg (fun hc => hIt hc.2)]
    exact ⟨rfl, fun hpos => absurd hpos hIt, fun _ => hTP⟩

end EnhancedPmd

namespace BasicPmd

/-- When no line matches the thread-header pattern, `parsePmdPerfOutput`
returns the empty list and a nil error. -/
theorem basic_no_header (output : String)
    (h : (linesOf output).filterMap headerCaps = []) :
    parsePmdPerfOutput output = ([], none) := by
  have hk := basicScan_keys (linesOf output) ⟨[], none⟩
  rw [h] at hk
  simp only [List.map_nil, List.append_nil, List.nil_append, keyOptB,
    Option.toList_none] at hk
  simp only [parsePmdPerfOutput]
  cases hcur : ((linesOf output).foldl basicStep ⟨[], none⟩).currentMetric with
  | some m =>
    rw [hcur] at hk
    simp [keyOptB] at hk
  | none =>
    rw [hcur] at hk
    simp only [keyOptB, Option.toList_none, List.map_nil, List.append_nil] at hk
    have hmet := List.map_eq_nil_iff.mp hk
    rw [hmet]
    rfl

end BasicPmd

namespace EnhancedPmd

/-- When no line matches the thread-header pattern,
`parseEnhancedPmdOutput` returns the empty list. -/
theorem enhanced_no_header (output : String)
    (h : (linesOf output).filterMap headerCaps = []) :
    parseEnhancedPmdOutput output = [] := by
  have hk := enhancedScan_keys (linesOf output) ⟨[], none, none⟩
  rw [h] at hk
  simp only [List.map_nil, List.append_nil, List.nil_append, keyOptE,
    Option.toList_none] at hk
  simp only [parseEnhancedPmdOutput]
  cases hcur : ((linesOf output).foldl enhancedStep ⟨[], none, none⟩).currentMetric with
  | some m =>
    rw [hcur] at hk
    simp [keyOptE] at hk
  | none =>
    rw [hcur] at hk
    simp only [keyOptE, Option.toList_none, List.map_nil, List.append_nil] at hk
    exact List.map_eq_nil_iff.mp hk

end EnhancedPmd

/-- One sample appended by `collectDropCounters`:
`prometheus.MustNewConstMetric(datapathDrops, CounterValue, float64(count),
e.Client.System.ID, dropReason)`.  The counter value keeps its integral
magnitude (the Go `float64(count)` conversion carries the same number). -/
structure DropMetric where
  systemID : String
  dropReason : String
  value : Nat
deriving DecidableEq

/-- The slice of the exporter state that `collectDropCounters` reads or
writes: the shared metrics buffer and the global error counter
(`e.errors`, modified only through `IncrementErrorCounter`). -/
structure ExporterState where
  metrics : List DropMetric
  errors : Int
deriving DecidableEq

/-- `collectDropCounters` from the collector file, with the
`coverage/show` invocation inside `GetDropCounters` abstracted as
`cmdResult`.  On failure it logs at Debug level and returns: the error
counter is not incremented, no metric is appended, and the error is not
propagated (the Go function returns nothing).  On success one sample per
extracted drop counter is appended (Go iterates the map in unspecified
order; the association-list order is used here, which no claim relies
on). -/
def collectDropCounters (s : ExporterState) (systemID : String)
    (cmdResult : Except String String) : ExporterState :=
  match EnhancedPmd.GetDropCounters cmdResult with
  | .error _ => s
  | .ok dropCounters =>
    { s with metrics := s.metrics
        ++ dropCounters.map (fun p => ⟨systemID, p.1, p.2⟩) }

/-- The rate-limiting skeleton of `GatherMetrics` from the exporter
file.  `nextCollectionTicker` is the recorded next-allowed-poll time
(Unix seconds); `rebuilds` counts executions of the rebuild body (the
spec's "counter on the underlying source invocations").  `nowEntry`
models the `time.Now().Unix()` read by the entry guard and `nowExit` the
`time.Now()` read when `nextCollectionTicker` is recomputed at the end of
a completed rebuild (`time.Now().Add(pollInterval seconds).Unix()`). -/
structure CacheState where
  nextCollectionTicker : Int
  rebuilds : Nat
deriving DecidableEq

/-- The `GatherMetrics` transition on the cache state: return immediately
when called before the next-allowed-poll time, otherwise run one rebuild
and set the ticker to the exit time plus the poll interval. -/
def GatherMetrics (s : CacheState) (pollInterval nowEntry nowExit : Int) :
    CacheState :=
  if nowEntry < s.nextCollectionTicker then s
  else ⟨nowExit + pollInterval, s.rebuilds + 1⟩

/-- The output decomposition of `parseEnhancedPmdOutput`: the records
appended during the scan, followed by the derived-field-finalized current
record when one exists. -/
theorem enhanced_output_decomp (output : String) :
    EnhancedPmd.parseEnhancedPmdOutput output
    = ((linesOf output).foldl EnhancedPmd.enhancedStep ⟨[], none, none⟩).metrics
      ++ (((linesOf output).foldl EnhancedPmd.enhancedStep
            ⟨[], none, none⟩).currentMetric.map
          EnhancedPmd.finalizeEnhanced).toList := by
  simp only [EnhancedPmd.parseEnhancedPmdOutput]
  cases ((linesOf output).foldl EnhancedPmd.enhancedStep
      ⟨[], none, none⟩).currentMetric <;> simp

/-- The derived-field computation leaves the identity fields in place
(componentwise form of `idsE_finalize`). -/
theorem finalize_ids_fields (m0 : EnhancedPmd.EnhancedPmdMetrics) :
    (EnhancedPmd.finalizeEnhanced m0).NumaID = m0.NumaID
    ∧ (EnhancedPmd.finalizeEnhanced m0).CoreID = m0.CoreID
    ∧ (EnhancedPmd.finalizeEnhanced m0).PmdID = m0.PmdID := by
  have hf := EnhancedPmd.idsE_finalize m0
  simpa [EnhancedPmd.idsE, Prod.mk.injEq] using hf

/-- C1: for every input text with N thread-header lines, both
record-building parsers (`parsePmdPerfOutput` and
`parseEnhancedPmdOutput`) return exactly N records, in header-encounter
order, and the i-th record's identity fields (`NumaID`, and
`PmdID`/`CoreID`) equal the two capture groups of the i-th header line.
Stated as equality of the identity lists, which fixes the length, the
order, and every element at once. -/
theorem claim_C1 (output : String) :
    ((BasicPmd.parsePmdPerfOutput output).1.map (fun m => (m.NumaID, m.PmdID))
      = ((linesOf output).filterMap headerCaps).map (fun p => (p.1, p.2))
    ∧ (EnhancedPmd.parseEnhancedPmdOutput output).map
        (fun m => (m.NumaID, m.CoreID, m.PmdID))
      = ((linesOf output).filterMap headerCaps).map (fun p => (p.1, p.2, p.2)))
    ∧ (BasicPmd.parsePmdPerfOutput output).1.length
      = ((linesOf output).filterMap headerCaps).length
    ∧ (EnhancedPmd.parseEnhancedPmdOutput output).length
      = ((linesOf output).filterMap headerCaps).length := by
  have h1 : (BasicPmd.parsePmdPerfOutput output).1.map BasicPmd.keyB
      = ((linesOf output).filterMap headerCaps).map (fun p => (p.1, p.2)) :=
    BasicPmd.basic_ids_eq output
  have h2 : (EnhancedPmd.parseEnhancedPmdOutput output).map EnhancedPmd.idsE
      = ((linesOf output).filterMap headerCaps).map (fun p => (p.1, p.2, p.2)) :=
    EnhancedPmd.enhanced_ids_eq output
  refine ⟨⟨h1, h2⟩, ?_, ?_⟩
  · have hl := congrArg List.length h1
    rw [List.length_map, List.length_map] at hl
    exact hl
  · have hl := congrArg List.length h2
    rw [List.length_map, List.length_map] at hl
    exact hl

/-- C10: every record returned by `parseEnhancedPmdOutput` has
`PmdID = CoreID`, because both fields are populated from the same
`core_id` capture group of the thread-header line and no later step
changes them. -/
theorem claim_C10 (output : String) :
    ∀ m ∈ EnhancedPmd.parseEnhancedPmdOutput output, m.PmdID = m.CoreID := by
  intro m hm
  rw [enhanced_output_decomp] at hm
  rcases List.mem_append.mp hm with hl | hr
  · exact (EnhancedPmd.enhanced_scanned_mem output m hl).1.symm
  · cases hcur : ((linesOf output).foldl EnhancedPmd.enhancedStep
        ⟨[], none, none⟩).currentMetric with
    | none =>
      rw [hcur] at hr
      exact absurd hr (List.not_mem_nil m)
    | some m0 =>
      rw [hcur] at hr
      have hr' : m = EnhancedPmd.finalizeEnhanced m0 := List.mem_singleton.mp hr
      subst hr'
      have hinv := EnhancedPmd.enhanced_current_inv output m0 hcur
      have hf := finalize_ids_fields m0
      rw [hf.2.2, hf.2.1, hinv.1]

/-- Witness for C10 at a concrete one-header input. -/
theorem claim_C10_witness :
    ((EnhancedPmd.parseEnhancedPmdOutput
        "pmd thread numa_id 0 core_id 3:").getD 0
        (EnhancedPmd.newEnhanced "" "")).PmdID
    = ((EnhancedPmd.parseEnhancedPmdOutput
        "pmd thread numa_id 0 core_id 3:").getD 0
        (EnhancedPmd.newEnhanced "" "")).CoreID :=
  claim_C10 "pmd thread numa_id 0 core_id 3:" _ (by decide)

/-- C6: for every input text in which no line matches the thread-header
pattern (including the empty text), both parsers return an empty record
list, and `parsePmdPerfOutput` returns a nil error. -/
theorem claim_C6 (output : String)
    (h : ∀ line ∈ linesOf output, headerCaps line = none) :
    BasicPmd.parsePmdPerfOutput output = ([], none)
    ∧ EnhancedPmd.parseEnhancedPmdOutput output = [] := by
  have hnil : (linesOf output).filterMap headerCaps = [] :=
    List.filterMap_eq_nil_iff.mpr h
  exact ⟨BasicPmd.basic_no_header output hnil,
    EnhancedPmd.enhanced_no_header output hnil⟩

/-- Witness for C6 at the empty input and at a non-empty header-free
input. -/
theorem claim_C6_witness :
    (BasicPmd.parsePmdPerfOutput "main thread:\nother counter 7" = ([], none)
      ∧ EnhancedPmd.parseEnhancedPmdOutput "main thread:\nother counter 7" = [])
    ∧ EnhancedPmd.parseEnhancedPmdOutput "" = [] :=
  ⟨claim_C6 "main thread:\nother counter 7" (by decide),
    (claim_C6 "" (by decide)).2⟩

/-- C4: merge precedence of `GetEnhancedPmdMetrics`.  The enrichment pass
(`enrichWithStats`, whose Go body is empty) never writes any field, so
the published records are exactly the base records parsed from the
primary command and every already-populated base field keeps its value
regardless of the secondary command's output. -/
theorem claim_C4 (output statsOutput : String) :
    EnhancedPmd.GetEnhancedPmdMetrics (.ok output) (.ok statsOutput)
      = .ok (EnhancedPmd.parseEnhancedPmdOutput output)
    ∧ ∀ ms : List EnhancedPmd.EnhancedPmdMetrics,
        EnhancedPmd.enrichWithStats ms statsOutput = ms :=
  ⟨rfl, fun _ => rfl⟩

/-- C5: a primary-command failure whose error message contains
`"exit status"` (a non-zero exit) makes both `GetPmdPerfMetrics` and
`GetEnhancedPmdMetrics` return an empty record list with a nil error;
any other invocation failure is returned to the caller as an error. -/
theorem claim_C5 (msg : String) (statsResult : Except String String) :
    (containsSubstr msg "exit status" = true →
      BasicPmd.GetPmdPerfMetrics (.error msg) = .ok []
      ∧ EnhancedPmd.GetEnhancedPmdMetrics (.error msg) statsResult = .ok [])
    ∧ (containsSubstr msg "exit status" = false →
      BasicPmd.GetPmdPerfMetrics (.error msg)
        = .error ("failed to execute pmd-perf-show: " ++ msg)
      ∧ EnhancedPmd.GetEnhancedPmdMetrics (.error msg) statsResult
        = .error ("failed to execute pmd-perf-show: " ++ msg)) := by
  constructor
  · intro h
    exact ⟨by simp [BasicPmd.GetPmdPerfMetrics, h],
      by simp [EnhancedPmd.GetEnhancedPmdMetrics, h]⟩
  · intro h
    exact ⟨by simp [BasicPmd.GetPmdPerfMetrics, h],
      by simp [EnhancedPmd.GetEnhancedPmdMetrics, h]⟩

/-- Witness for C5 with a non-zero-exit message and a transport-style
message. -/
theorem claim_C5_witness :
    (BasicPmd.GetPmdPerfMetrics (.error "exit status 1") = .ok []
      ∧ EnhancedPmd.GetEnhancedPmdMetrics (.error "exit status 1")
          (.ok "") = .ok [])
    ∧ BasicPmd.GetPmdPerfMetrics (.error "fork failed")
      = .error ("failed to execute pmd-perf-show: " ++ "fork failed") :=
  ⟨(claim_C5 "exit status 1" (.ok "")).1 (by decide),
    ((claim_C5 "fork failed" (.ok "")).2 (by decide)).1⟩

/-- Counterexample to C3 as stated: when the drop-counter source fails,
`collectDropCounters` leaves the exporter state untouched — in
particular the global error counter keeps its value (here 0) instead of
being incremented to 1, and nothing is propagated (the function returns
no error at all, mirroring the Go `func ... ()` signature). -/
theorem claim_C3_counterexample :
    collectDropCounters ⟨[], 0⟩ "sys" (Except.error "exec failed") = ⟨[], 0⟩
    ∧ (0 : Int) ≠ 0 + 1 :=
  ⟨rfl, by decide⟩

/-- C3 amended: `GetDropCounters` does return the invocation failure to
its caller, but its only caller `collectDropCounters` swallows it after a
debug log: the exporter state (metrics buffer and global error counter)
is unchanged, so other sub-collections are unaffected and no collection
error or error-counter increment occurs. -/
theorem claim_C3_amended (s : ExporterState) (sysid msg : String) :
    EnhancedPmd.GetDropCounters (Except.error msg)
      = Except.error ("failed to get coverage: " ++ msg)
    ∧ collectDropCounters s sysid (Except.error msg) = s :=
  ⟨rfl, rfl⟩

/-- C8: rate limiting of the snapshot rebuild.  A call before the
recorded next-allowed-poll time returns immediately with the state
unchanged (no rebuild, no source invocation); a call at or past it runs
exactly one rebuild and sets the ticker to the completion time plus the
poll interval; consequently two sequential calls whose second entry falls
within one poll interval of the first call's completion perform at most
one rebuild in total. -/
theorem claim_C8 (s : CacheState) (p t1 t1' t2 t2' : Int) :
    (t1 < s.nextCollectionTicker → GatherMetrics s p t1 t1' = s)
    ∧ (s.nextCollectionTicker ≤ t1 →
        (GatherMetrics s p t1 t1').nextCollectionTicker = t1' + p
        ∧ (GatherMetrics s p t1 t1').rebuilds = s.rebuilds + 1)
    ∧ (t2 < t1' + p →
        (GatherMetrics (GatherMetrics s p t1 t1') p t2 t2').rebuilds
          ≤ s.rebuilds + 1) := by
  refine ⟨fun h => ?_, fun h => ?_, fun h => ?_⟩
  · simp [GatherMetrics, h]
  · rw [GatherMetrics, if_neg (not_lt.mpr h)]
    exact ⟨rfl, rfl⟩
  · by_cases h1 : t1 < s.nextCollectionTicker
    · have hin : GatherMetrics s p t1 t1' = s := by simp [GatherMetrics, h1]
      rw [hin]
      by_cases h2 : t2 < s.nextCollectionTicker
      · simp only [GatherMetrics, if_pos h2]
        exact Nat.le_succ _
      · simp only [GatherMetrics, if_neg h2]
        exact Nat.le_refl _
    · have hin : GatherMetrics s p t1 t1' = ⟨t1' + p, s.rebuilds + 1⟩ := by
        simp [GatherMetrics, h1]
      rw [hin]
      simp only [GatherMetrics]
      rw [if_pos (show t2 < (⟨t1' + p, s.rebuilds + 1⟩ : CacheState).nextCollectionTicker from h)]

/-- Witness for C8: with ticker 10 and poll interval 5, a call at time 3
is a no-op; a call at time 10 completing at 11 rebuilds once and moves
the ticker to 16; a second call entering at 12 < 16 does not rebuild. -/
theorem claim_C8_witness :
    GatherMetrics ⟨10, 0⟩ 5 3 4 = ⟨10, 0⟩
    ∧ (GatherMetrics ⟨10, 0⟩ 5 10 11).nextCollectionTicker = 16
    ∧ (GatherMetrics ⟨10, 0⟩ 5 10 11).rebuilds = 1
    ∧ (GatherMetrics (GatherMetrics ⟨10, 0⟩ 5 10 11) 5 12 13).rebuilds ≤ 1 :=
  ⟨(claim_C8 ⟨10, 0⟩ 5 3 4 12 13).1 (by decide),
    ((claim_C8 ⟨10, 0⟩ 5 10 11 12 13).2.1 (by decide)).1,
    ((claim_C8 ⟨10, 0⟩ 5 10 11 12 13).2.1 (by decide)).2,
    (claim_C8 ⟨10, 0⟩ 5 10 11 12 13).2.2 (by decide)⟩

/-- Mapping a finalizer over a present option and listing it. -/
theorem optToList_some {α β : Type} (f : α → β) (a : α) :
    ((some a).map f).toList = [f a] := rfl

/-- Mapping a finalizer over an absent option and listing it. -/
theorem optToList_none {α β : Type} (f : α → β) :
    ((none : Option α).map f).toList = [] := rfl

/-- A two-header input whose first block carries idle and busy cycle
lines: the first record is finalized by the second thread-header line. -/
def c2cexInput : String :=
  "pmd thread numa_id 0 core_id 1:\nidle cycles: 40.0% (2.0 Mcycles)\nbusy cycles: 60.0% (3.0 Mcycles)\npmd thread numa_id 0 core_id 2:"

/-- The first record of `c2cexInput` as built by the scan: idle cycles
then busy cycles (which also records the busy percentage as CPU
utilization), with `TotalCycles` untouched. -/
def c2cexRec : EnhancedPmd.EnhancedPmdMetrics :=
  { EnhancedPmd.newEnhanced "0" "1" with IdleCycles := 2000000, CPUUtilization := 60, BusyCycles := 3000000 }

set_option maxRecDepth 4000 in
/-- Line-by-line evaluation of the parser on `c2cexInput`: the first
record is appended unchanged when the second header appears, the second
record goes through the end-of-input derived-field computation (a no-op
on its zero fields). -/
theorem c2cex_parse_eq :
    EnhancedPmd.parseEnhancedPmdOutput c2cexInput
    = [c2cexRec, EnhancedPmd.newEnhanced "0" "2"] := by
  have hl : linesOf c2cexInput
      = ["pmd thread numa_id 0 core_id 1:",
         "idle cycles: 40.0% (2.0 Mcycles)",
         "busy cycles: 60.0% (3.0 Mcycles)",
         "pmd thread numa_id 0 core_id 2:"] := by decide
  have h1 : EnhancedPmd.enhancedStep ⟨[], none, none⟩
      "pmd thread numa_id 0 core_id 1:"
      = ⟨[], some (EnhancedPmd.newEnhanced "0" "1"), none⟩ := by
    decide
  have h2 : EnhancedPmd.enhancedStep
      ⟨[], some (EnhancedPmd.newEnhanced "0" "1"), none⟩
      "idle cycles: 40.0% (2.0 Mcycles)"
      = ⟨[], some { EnhancedPmd.newEnhanced "0" "1" with IdleCycles := 2000000 }, none⟩ := by
    decide
  have h3 : EnhancedPmd.enhancedStep
      ⟨[], some { EnhancedPmd.newEnhanced "0" "1" with IdleCycles := 2000000 }, none⟩
      "busy cycles: 60.0% (3.0 Mcycles)"
      = ⟨[], some c2cexRec, none⟩ := by
    decide
  have h4 : EnhancedPmd.enhancedStep ⟨[], some c2cexRec, none⟩
      "pmd thread numa_id 0 core_id 2:"
      = ⟨[c2cexRec], some (EnhancedPmd.newEnhanced "0" "2"), none⟩ := by
    decide
  simp only [EnhancedPmd.parseEnhancedPmdOutput, hl, List.foldl_cons,
    List.foldl_nil, h1, h2, h3, h4]
  decide

/-- Counterexample to C2 as stated: in `c2cexInput` the first record is
finalized because another thread-header line starts the next record, its
total-cycle field was never observed (no pattern ever sets it), its busy
and idle cycles are 3000000 and 2000000 — yet its `TotalCycles` is 0,
not busy+idle: the derived-field computation runs only at end of input,
not at header-transition finalization. -/
theorem claim_C2_counterexample :
    ((EnhancedPmd.parseEnhancedPmdOutput c2cexInput)[0]?).map
        (fun m => (m.BusyCycles, m.IdleCycles, m.TotalCycles))
      = some (3000000, 2000000, 0)
    ∧ (EnhancedPmd.parseEnhancedPmdOutput c2cexInput).length = 2
    ∧ (0 : Nat) ≠ u64add 3000000 2000000 := by
  refine ⟨?_, ?_, by decide⟩
  · rw [c2cex_parse_eq]
    decide
  · rw [c2cex_parse_eq]
    decide

/-- C2 amended: the derived-field computation runs only at the
end-of-input finalization.  A record finalized by a subsequent
thread-header line is appended with both total fields still zero (no
field matcher ever writes them); the last record — the only one finalized
at end of input — always gets `TotalCycles = BusyCycles + IdleCycles`
(its total-cycle field can never have been observed) and, when the
iteration count is positive, `TotalPackets` equal to the truncated
product of iterations and packets-per-iteration. -/
theorem claim_C2_amended (output : String) :
    (∀ (i : Nat) (m : EnhancedPmd.EnhancedPmdMetrics),
        (EnhancedPmd.parseEnhancedPmdOutput output)[i]? = some m →
        i + 1 < (EnhancedPmd.parseEnhancedPmdOutput output).length →
        m.TotalCycles = 0 ∧ m.TotalPackets = 0)
    ∧ (∀ m : EnhancedPmd.EnhancedPmdMetrics,
        (EnhancedPmd.parseEnhancedPmdOutput output).getLast? = some m →
        m.TotalCycles = u64add m.BusyCycles m.IdleCycles
        ∧ (0 < m.Iterations →
            m.TotalPackets
              = uint64OfFloat ((m.Iterations : ℚ) * m.PacketsPerIteration))
        ∧ (m.Iterations = 0 → m.TotalPackets = 0)) := by
  constructor
  · intro i m hget hlen
    rw [enhanced_output_decomp] at hget
    cases hcur : ((linesOf output).foldl EnhancedPmd.enhancedStep
        ⟨[], none, none⟩).currentMetric with
    | none =>
      rw [hcur, optToList_none, List.append_nil] at hget
      have hmem := List.getElem?_mem hget
      have hinv := EnhancedPmd.enhanced_scanned_mem output m hmem
      exact ⟨hinv.2.1, hinv.2.2⟩
    | some m0 =>
      rw [enhanced_output_decomp, hcur, optToList_some] at hlen
      rw [hcur, optToList_some] at hget
      rw [List.length_append] at hlen
      have hi : i < ((linesOf output).foldl EnhancedPmd.enhancedStep
          ⟨[], none, none⟩).metrics.length := by
        simpa using hlen
      rw [List.getElem?_append_left hi] at hget
      have hmem := List.getElem?_mem hget
      have hinv := EnhancedPmd.enhanced_scanned_mem output m hmem
      exact ⟨hinv.2.1, hinv.2.2⟩
  · intro m hlast
    rw [enhanced_output_decomp] at hlast
    cases hcur : ((linesOf output).foldl EnhancedPmd.enhancedStep
        ⟨[], none, none⟩).currentMetric with
    | none =>
      rw [hcur, optToList_none, List.append_nil] at hlast
      have hnil := EnhancedPmd.enhancedScan_none_nil (linesOf output)
        ⟨[], none, none⟩ (fun _ => rfl) hcur
      rw [hnil] at hlast
      cases hlast
    | some m0 =>
      rw [hcur, optToList_some, List.getLast?_concat] at hlast
      have hm := Option.some.inj hlast
      subst hm
      have hinv := EnhancedPmd.enhanced_current_inv output m0 hcur
      exact EnhancedPmd.finalize_of_zero m0 hinv.2.1 hinv.2.2

/-- A one-block input with iterations, packets-per-iteration, idle and
busy cycles: its only record is finalized at end of input. -/
def c2wInput : String :=
  "pmd thread numa_id 0 core_id 7:\niterations: 100 (1.0 us/it)\npkts/it: 32.5\nidle cycles: 40.0% (2.0 Mcycles)\nbusy cycles: 60.0% (3.0 Mcycles)\n"

/-- The record built from `c2wInput` before the end-of-input
finalization. -/
def c2wFinal : EnhancedPmd.EnhancedPmdMetrics :=
  { EnhancedPmd.newEnhanced "0" "7" with Iterations := 100, UsPerIteration := 1, PacketsPerIteration := (65 : ℚ)/2, IdleCycles := 2000000, CPUUtilization := 60, BusyCycles := 3000000 }

set_option maxRecDepth 4000 in
/-- Line-by-line evaluation of the parser on `c2wInput`: one record,
finalized at end of input. -/
theorem c2w_parse_eq :
    EnhancedPmd.parseEnhancedPmdOutput c2wInput
    = [EnhancedPmd.finalizeEnhanced c2wFinal] := by
  have hl : linesOf c2wInput
      = ["pmd thread numa_id 0 core_id 7:",
         "iterations: 100 (1.0 us/it)",
         "pkts/it: 32.5",
         "idle cycles: 40.0% (2.0 Mcycles)",
         "busy cycles: 60.0% (3.0 Mcycles)"] := by decide
  have h1 : EnhancedPmd.enhancedStep ⟨[], none, none⟩
      "pmd thread numa_id 0 core_id 7:"
      = ⟨[], some (EnhancedPmd.newEnhanced "0" "7"), none⟩ := by
    decide
  have h2 : EnhancedPmd.enhancedStep
      ⟨[], some (EnhancedPmd.newEnhanced "0" "7"), none⟩
      "iterations: 100 (1.0 us/it)"
      = ⟨[], some { EnhancedPmd.newEnhanced "0" "7" with Iterations := 100, UsPerIteration := 1 }, none⟩ := by
    decide
  have h3 : EnhancedPmd.enhancedStep
      ⟨[], some { EnhancedPmd.newEnhanced "0" "7" with Iterations := 100, UsPerIteration := 1 }, none⟩
      "pkts/it: 32.5"
      = ⟨[], some { EnhancedPmd.newEnhanced "0" "7" with Iterations := 100, UsPerIteration := 1, PacketsPerIteration := (65 : ℚ)/2 }, none⟩ := by
    decide
  have h4 : EnhancedPmd.enhancedStep
      ⟨[], some { EnhancedPmd.newEnhanced "0" "7" with Iterations := 100, UsPerIteration := 1, PacketsPerIteration := (65 : ℚ)/2 }, none⟩
      "idle cycles: 40.0% (2.0 Mcycles)"
      = ⟨[], some { EnhancedPmd.newEnhanced "0" "7" with Iterations := 100, UsPerIteration := 1, PacketsPerIteration := (65 : ℚ)/2, IdleCycles := 2000000 }, none⟩ := by
    decide
  have h5 : EnhancedPmd.enhancedStep
      ⟨[], some { EnhancedPmd.newEnhanced "0" "7" with Iterations := 100, UsPerIteration := 1, PacketsPerIteration := (65 : ℚ)/2, IdleCycles := 2000000 }, none⟩
      "busy cycles: 60.0% (3.0 Mcycles)"
      = ⟨[], some c2wFinal, none⟩ := by
    decide
  simp only [EnhancedPmd.parseEnhancedPmdOutput, hl, List.foldl_cons,
    List.foldl_nil, h1, h2, h3, h4, h5]
  rfl

set_option maxRecDepth 4000 in
/-- Witness for the amended C2: on `c2wInput` the end-of-input record
gets `TotalCycles = 3000000 + 2000000` and
`TotalPackets = floor(100 * 32.5)`. -/
theorem claim_C2_amended_witness :
    (EnhancedPmd.finalizeEnhanced c2wFinal).TotalCycles
      = u64add (EnhancedPmd.finalizeEnhanced c2wFinal).BusyCycles
          (EnhancedPmd.finalizeEnhanced c2wFinal).IdleCycles
    ∧ (EnhancedPmd.finalizeEnhanced c2wFinal).TotalCycles = 5000000
    ∧ (EnhancedPmd.finalizeEnhanced c2wFinal).TotalPackets = 3250 :=
  ⟨((claim_C2_amended c2wInput).2 (EnhancedPmd.finalizeEnhanced c2wFinal)
      (by rw [c2w_parse_eq]; rfl)).1,
    by decide, by decide⟩

/-- Membership in a map after a Go-style assignment: the entry was
already present or carries the assigned key. -/
theorem mapInsert_mem {m : List (String × Nat)} {k : String} {v : Nat}
    {p : String × Nat} (hp : p ∈ mapInsert m k v) : p ∈ m ∨ p.1 = k := by
  unfold mapInsert at hp
  split at hp
  · obtain ⟨q, hq, hqe⟩ := List.mem_map.mp hp
    by_cases hqk : q.1 = k
    · right
      rw [if_pos hqk] at hqe
      rw [← hqe]
    · left
      rw [if_neg hqk] at hqe
      rw [← hqe]
      exact hq
  · rcases List.mem_append.mp hp with h | h
    · exact Or.inl h
    · right
      rw [List.mem_singleton.mp h]

/-- One `GetDropCounters` scan step only records keys from the fixed
drop-reason list. -/
theorem dropStep_subset (acc : List (String × Nat)) (line : String)
    (hacc : ∀ p ∈ acc, p.1 ∈ EnhancedPmd.dropTypes) :
    ∀ p ∈ EnhancedPmd.dropStep acc line, p.1 ∈ EnhancedPmd.dropTypes := by
  intro p hp
  simp only [EnhancedPmd.dropStep] at hp
  split at hp
  · split at hp
    · next hcond =>
      simp only [updOpt] at hp
      split at hp
      · rcases mapInsert_mem hp with h | h
        · exact hacc p h
        · rw [h]
          exact List.elem_iff.mp hcond
      · exact hacc p hp
    · exact hacc p hp
  · exact hacc p hp

/-- Every entry extracted from `coverage/show` output has a key in the
fixed drop-reason list. -/
theorem extract_subset (output : String) :
    ∀ p ∈ EnhancedPmd.extractDropCounters output,
      p.1 ∈ EnhancedPmd.dropTypes := by
  unfold EnhancedPmd.extractDropCounters
  generalize linesOf output = ls
  have hgen : ∀ (acc : List (String × Nat)),
      (∀ p ∈ acc, p.1 ∈ EnhancedPmd.dropTypes) →
      ∀ p ∈ ls.foldl EnhancedPmd.dropStep acc,
        p.1 ∈ EnhancedPmd.dropTypes := by
    induction ls with
    | nil =>
      intro acc hacc
      simpa using hacc
    | cons l t ih =>
      intro acc hacc
      rw [List.foldl_cons]
      exact ih _ (dropStep_subset acc l hacc)
  exact hgen [] (fun p hp => absurd hp (List.not_mem_nil p))

/-- C7: the map built by `GetDropCounters` contains only keys from the
fixed 24-element drop-reason list — a line whose leading token is not in
the list contributes nothing, and unobserved reasons are absent rather
than present with value zero; on the concrete input
`"datapath_drop_meter 42\nother_counter 7"` the result is exactly the
one-entry map. -/
theorem claim_C7 :
    (∀ (output k : String) (v : Nat),
        (k, v) ∈ EnhancedPmd.extractDropCounters output →
        k ∈ EnhancedPmd.dropTypes)
    ∧ EnhancedPmd.extractDropCounters "datapath_drop_meter 42\nother_counter 7"
      = [("datapath_drop_meter", 42)] := by
  constructor
  · intro output k v hkv
    exact extract_subset output (k, v) hkv
  · decide

/-- Witness for C7 at the concrete two-line input. -/
theorem claim_C7_witness : "datapath_drop_meter" ∈ EnhancedPmd.dropTypes :=
  claim_C7.1 "datapath_drop_meter 42\nother_counter 7" "datapath_drop_meter" 42
    (by decide)
